import Mathlib

/-
Verification of the rlite control-plane core (src/kernel/ctrl-dev.c) against
its natural-language specification. The kernel code is shallowly embedded:
each C function relevant to a claim is translated into a pure Lean function
over explicit state records, and the claims are settled as theorems about
those functions. Kernel-side concerns with no sequential functional content
(locking, wait queues, memory-allocation failure, userspace copying) are
noted at the definition they would affect.
-/

/-! ## Error codes (Linux errno values, returned negated by the C code) -/

def EPERM : Int := 1
def ENXIO : Int := 6
def EAGAIN : Int := 11
def ENOMEM : Int := 12
def EBUSY : Int := 16
def EINVAL : Int := 22
def ENOSPC : Int := 28
def ENOSYS : Int := 38
def ENOBUFS : Int := 105

/-! ## Upstream queue (per control device)

Embeds the upqueue fields of `struct rl_ctrl`, `upqentry_size`,
`rl_upqueue_append` and the queue part of `rl_ctrl_read`. An `upqueue_entry`
owns a serialized message; only its length matters for queue accounting, so
entries are modelled by their `serlen`. The C constant
`sizeof(struct upqueue_entry)` is platform dependent, so it is kept as a
parameter `hdr` of every operation. -/

def RL_UPQUEUE_SIZE_MAX : Nat := 16384

/-- Accounted size of one queued entry: `entry->serlen + sizeof(*entry)`
(function `upqentry_size`). -/
def upqentry_size (hdr serlen : Nat) : Nat :=
  serlen + hdr

/-- Upqueue state of one control device: the FIFO of serialized message
lengths and the accounted byte size (`rc->upqueue`, `rc->upqueue_size`). -/
structure UpQueue where
  entries : List Nat
  size : Nat
  deriving Repr, DecidableEq

/-- Accounting invariant of the upqueue: the recorded size is the sum of the
accounted entry sizes and stays within the 16 KiB budget. -/
def upq_inv (hdr : Nat) (q : UpQueue) : Prop :=
  q.size = (q.entries.map (upqentry_size hdr)).sum ∧ q.size ≤ RL_UPQUEUE_SIZE_MAX

instance (hdr : Nat) (q : UpQueue) : Decidable (upq_inv hdr q) := by
  unfold upq_inv; infer_instance

/-- Embeds `rl_upqueue_append`. The C function serializes the message and
loops: if the entry fits it is enqueued; otherwise, when `maysleep` is unset
or the 5 ms deadline has passed, it fails with `-ENOSPC` and frees the entry;
when `maysleep` is set it waits via `schedule_timeout` and retries. The retry
budget before the deadline is modelled by `fuel`; no concurrent reader runs
during the wait in this sequential model, so the queue seen at each retry is
unchanged. Allocation failures (`-ENOMEM`) are not modelled. -/
def rl_upqueue_append (hdr : Nat) (q : UpQueue) (serlen : Nat) (maysleep : Bool)
    (fuel : Nat) : UpQueue × Int :=
  if RL_UPQUEUE_SIZE_MAX < q.size + upqentry_size hdr serlen then
    match fuel, maysleep with
    | f + 1, true => rl_upqueue_append hdr q serlen maysleep f
    | _, _ => (q, -ENOSPC)
  else
    (⟨q.entries ++ [serlen], q.size + upqentry_size hdr serlen⟩, 0)

/-- Embeds the queue-consuming part of `rl_ctrl_read` (non-blocking path; the
blocking path only adds sleeping on an empty queue). The result is the new
queue, the return value of the read, and whether writers blocked on space are
woken up (the C code wakes `POLLOUT` waiters iff `ret > 0`). A `copy_to_user`
fault (`-EFAULT`) is not modelled. -/
def rl_ctrl_read (hdr : Nat) (q : UpQueue) (len : Nat) : UpQueue × Int × Bool :=
  if len = 0 then
    (q, 0, false)
  else
    match q.entries with
    | [] => (q, -EAGAIN, false)
    | serlen :: rest =>
      if len < serlen then
        (q, -ENOBUFS, false)
      else
        (⟨rest, q.size - upqentry_size hdr serlen⟩, Int.ofNat serlen, true)

/-! ## Registered applications (per IPCP)

Embeds `struct registered_appl` and the registration operations of
component 4.F. -/

inductive ApplRegState where
  | pending
  | complete
  deriving Repr, DecidableEq

/-- Embeds `struct registered_appl`; the back pointer `rc` to the owning
control device is modelled by a numeric device identifier. -/
structure RegisteredAppl where
  name : String
  rc : Nat
  event_id : Nat
  state : ApplRegState
  refcnt : Nat
  deriving Repr, DecidableEq

/-! ## IPCP entries and table -/

def IPCP_ID_BITMAP_SIZE : Nat := 256

/-- Embeds `struct ipcp_entry`. Flags are split into named booleans, the DIF
reference is inlined as its name and type strings, the optional uipcp back
pointer is a numeric control-device identifier, and the per-IPCP set of
registered applications is carried inline. Factory-private state, per-CPU
statistics and the operation table are not data; the presence of the
kernel-side registration hook is kept as a boolean. -/
structure IpcpEntry where
  id : Nat
  name : String
  dif_name : String
  dif_ty : String
  addr : Nat
  flow_del_wait_ms : Nat
  refcnt : Nat
  txhdroom : Nat
  rxhdroom : Nat
  tailroom : Nat
  max_sdu_size : Nat
  zombie : Bool
  use_cep_ids : Bool
  uipcp : Option Nat
  registered_appls : List RegisteredAppl
  has_appl_register_hook : Bool
  deriving Repr, DecidableEq

/-- Field initialization performed by `ipcp_add_entry` when the id allocation
succeeds (ctrl-dev.c lines 595-611): address starts at `RL_ADDR_NULL`
(modelled 0), `flow_del_wait_ms` defaults to 4000 ms, the reference count
starts at 1, header/tail room are 0 and `max_sdu_size` is 2^16 - 1. The
`use_cep_ids` flag is set later by `ipcp_add` from the factory. -/
def ipcp_add_entry_init (id : Nat) (name dif_name dif_ty : String) : IpcpEntry :=
  { id := id
    name := name
    dif_name := dif_name
    dif_ty := dif_ty
    addr := 0
    flow_del_wait_ms := 4000
    refcnt := 1
    txhdroom := 0
    rxhdroom := 0
    tailroom := 0
    max_sdu_size := 2 ^ 16 - 1
    zombie := false
    use_cep_ids := false
    uipcp := none
    registered_appls := []
    has_appl_register_hook := false }

/-- IPCP-related state of one data model: the IPCP table and the id bitmap
(the bitmap is modelled by the list of set bits). Hash-table iteration order
is modelled by list order. -/
structure IpcpDM where
  ipcp_table : List IpcpEntry
  ipcp_id_bitmap : List Nat
  deriving Repr, DecidableEq

/-- Table lookup by id, as in `__ipcp_get` (without the refcount bump, which
callers of this model apply explicitly where it matters). -/
def ipcp_lookup (dm : IpcpDM) (id : Nat) : Option IpcpEntry :=
  dm.ipcp_table.find? (fun e => e.id = id)

/-- Pointwise update of the table entry with the given id. -/
def ipcp_table_update (t : List IpcpEntry) (id : Nat) (g : IpcpEntry → IpcpEntry) :
    List IpcpEntry :=
  t.map (fun e => if e.id = id then g e else e)

/-- Embeds `__ipcp_put`: decrement the reference count; if it stays positive
nothing else happens; otherwise the entry is unlinked from the table and its
id bit cleared. The factory destructor, module release, DIF release,
broadcast of the DEL update and the final free happen after the unlink and
carry no state in this model. -/
def __ipcp_put (dm : IpcpDM) (id : Nat) : IpcpDM :=
  match ipcp_lookup dm id with
  | none => dm
  | some e =>
    if e.refcnt = 1 then
      ⟨dm.ipcp_table.filter (fun x => ¬ x.id = id),
       dm.ipcp_id_bitmap.filter (fun b => ¬ b = id)⟩
    else
      ⟨ipcp_table_update dm.ipcp_table id (fun x => { x with refcnt := x.refcnt - 1 }),
       dm.ipcp_id_bitmap⟩

/-- Embeds `ipcp_del` (the IPCP_DESTROY path): reject ids outside the bitmap
range and missing entries with `- ENXIO`; reject an entry already marked
ZOMBIE with `- ENXIO`; otherwise set the ZOMBIE flag and drop the table's
creation reference via `ipcp_put`. The `ipcp_get`/`ipcp_put` pair around the
check cancels out; the PDUFT flush, automatic application unregistration and
I/O-device shutdown performed in between drop further references but are
modelled by starting states that already account for them. -/
def ipcp_del (dm : IpcpDM) (id : Nat) : IpcpDM × Int :=
  if IPCP_ID_BITMAP_SIZE ≤ id then (dm, - ENXIO)
  else
    match ipcp_lookup dm id with
    | none => (dm, - ENXIO)
    | some e =>
      if e.zombie then (dm, - ENXIO)
      else
        let dm2 : IpcpDM :=
          ⟨ipcp_table_update dm.ipcp_table id (fun x => { x with zombie := true }),
           dm.ipcp_id_bitmap⟩
        (__ipcp_put dm2 id, 0)

/-- Loop of `ipcp_select_by_dif`, carried over the running `selected` value.
Zombie entries are skipped. With a DIF name the first matching entry is
returned (the C loop breaks); without one the loop prefers a candidate when
there is no current selection, or when the candidate is in a "normal" DIF and
the current selection either is not or has a smaller tx header room. -/
def ipcp_select_loop (dif_name : Option String) :
    Option IpcpEntry → List IpcpEntry → Option IpcpEntry
  | sel, [] => sel
  | sel, e :: rest =>
    if e.zombie then ipcp_select_loop dif_name sel rest
    else
      match dif_name with
      | none =>
        match sel with
        | none => ipcp_select_loop dif_name (some e) rest
        | some s =>
          if e.dif_ty = "normal" ∧ (¬ s.dif_ty = "normal" ∨ s.txhdroom < e.txhdroom) then
            ipcp_select_loop dif_name (some e) rest
          else
            ipcp_select_loop dif_name (some s) rest
      | some d =>
        if e.dif_name = d then some e
        else ipcp_select_loop dif_name sel rest

/-- Embeds `ipcp_select_by_dif`. The refcount bump on the returned entry is
not modelled (it does not affect which entry is selected). -/
def ipcp_select_by_dif (table : List IpcpEntry) (dif_name : Option String) :
    Option IpcpEntry :=
  ipcp_select_loop dif_name none table

/-! ## IPCP update notifications (component 4.K) -/

/-- Update kinds `RL_IPCP_UPDATE_{ADD,UPD,DEL,UIPCP_DEL}`. Their numeric
values live in a header that is not among the sources; the claims do not
depend on them, so they are modelled as distinct small naturals. -/
def RL_IPCP_UPDATE_ADD : Nat := 1
def RL_IPCP_UPDATE_UPD : Nat := 2
def RL_IPCP_UPDATE_DEL : Nat := 3
def RL_IPCP_UPDATE_UIPCP_DEL : Nat := 4

/-- Embeds `struct rl_kmsg_ipcp_update` (identity and capacity metadata of
one IPCP). -/
structure IpcpUpdate where
  update_type : Nat
  ipcp_id : Nat
  ipcp_addr : Nat
  txhdroom : Nat
  rxhdroom : Nat
  tailroom : Nat
  max_sdu_size : Nat
  ipcp_name : String
  dif_ty : String
  dif_name : String
  deriving Repr, DecidableEq

/-- Embeds `ipcp_update_fill`: copy the IPCP's current identity and capacity
metadata into an update message of the given type. -/
def ipcp_update_fill (e : IpcpEntry) (update_type : Nat) : IpcpUpdate :=
  { update_type := update_type
    ipcp_id := e.id
    ipcp_addr := e.addr
    txhdroom := e.txhdroom
    rxhdroom := e.rxhdroom
    tailroom := e.tailroom
    max_sdu_size := e.max_sdu_size
    ipcp_name := e.name
    dif_ty := e.dif_ty
    dif_name := e.dif_name }

/-- Subscription-relevant state of one control device: the RL_F_IPCPS flag
bit and the stream of update messages enqueued upstream (the serialization
into the bounded upqueue is abstracted; `rl_upqueue_append` is called with
`maysleep` false and its failure drops the message, not modelled here). -/
structure CtrlSubState where
  flags_ipcps : Bool
  upqueue_updates : List IpcpUpdate
  deriving Repr, DecidableEq

/-- Embeds `initial_ipcp_update`: walk the whole IPCP table, with no filter
on any flag, and enqueue one ADD update per entry. -/
def initial_ipcp_update (table : List IpcpEntry) (rc : CtrlSubState) : CtrlSubState :=
  { rc with upqueue_updates :=
      rc.upqueue_updates ++ table.map (fun e => ipcp_update_fill e RL_IPCP_UPDATE_ADD) }

/-- Embeds `rl_ctrl_ioctl` for the only defined command (RLITE_IOCTL_CHFLAGS)
restricted to the only defined flag bit RL_F_IPCPS: when the bit turns from
off to on (`changed & flags & RL_F_IPCPS`), replay the table through
`initial_ipcp_update`; then store the new flags. -/
def rl_ctrl_ioctl (table : List IpcpEntry) (rc : CtrlSubState) (flags_ipcps : Bool) :
    CtrlSubState :=
  let changed := xor flags_ipcps rc.flags_ipcps
  let rc1 := if changed && flags_ipcps then initial_ipcp_update table rc else rc
  { rc1 with flags_ipcps := flags_ipcps }

/-! ## Application registration (component 4.F, claim C3) -/

/-- Embeds `ipcp_application_add`. The duplicate check is
`__ipcp_application_get` (whose refcount bump is immediately undone by
`ipcp_application_put`, leaving the registry unchanged in both duplicate
branches). A fresh registration is appended with refcount 1 and state
PENDING when a uipcp will respond, COMPLETE otherwise, and takes a reference
on the IPCP. When the IPCP has a kernel-side `appl_register` hook, the hook
outcome is the parameter `hookRet`; a nonzero outcome rolls the registration
back (`ipcp_application_put` removes the entry; the rollback is deferred to
a work item in C and modelled as immediate). -/
def ipcp_application_add (ipcp : IpcpEntry) (appl_name : String) (rc event_id : Nat)
    (uipcp : Bool) (hookRet : Int) : IpcpEntry × Int :=
  match ipcp.registered_appls.find? (fun a => a.name = appl_name) with
  | some app =>
    if app.rc = rc then (ipcp, 1) else (ipcp, -EBUSY)
  | none =>
    let newapp : RegisteredAppl :=
      { name := appl_name
        rc := rc
        event_id := event_id
        state := if uipcp then ApplRegState.pending else ApplRegState.complete
        refcnt := 1 }
    let ipcp1 : IpcpEntry :=
      { ipcp with
        registered_appls := ipcp.registered_appls ++ [newapp]
        refcnt := ipcp.refcnt + 1 }
    if ipcp.has_appl_register_hook then
      if hookRet = 0 then (ipcp1, 0)
      else
        ({ ipcp1 with
           registered_appls := ipcp1.registered_appls.filter (fun a => ¬ a.name = appl_name),
           refcnt := ipcp1.refcnt - 1 }, hookRet)
    else (ipcp1, 0)

/-! ## Flows (claims C1 and C6) -/

/-- Embeds `struct flow_entry`. Flags are split into named booleans; the C
field `expires == ~0U` (not queued in the put-queue) is modelled by `none`.
The owning IPCP is recorded by id; DTP state, flow spec and configuration
carry no weight in the claims and are omitted. -/
structure FlowEntry where
  local_port : Nat
  local_cep : Nat
  ipcp_id : Nat
  uid : Nat
  event_id : Nat
  refcnt : Nat
  pending : Bool
  allocated : Bool
  deallocated : Bool
  never_bound : Bool
  del_postponed : Bool
  initiator : Bool
  txrx_eof : Bool
  remote_port : Nat
  remote_addr : Nat
  flow_control : Bool
  expires : Option Nat
  deriving Repr, DecidableEq

/-- Flow-related state of one data model: the flow table, the port-id and
cep-id bitmaps and cep hash table (each modelled by the list of members),
the put-queue as (port, expiration) pairs in ascending expiration order, the
removal queue, and the armed expiration of the put-queue timer. -/
structure FlowDM where
  flow_table : List FlowEntry
  port_id_bitmap : List Nat
  cep_table : List Nat
  cep_id_bitmap : List Nat
  flows_putq : List (Nat × Nat)
  flows_removeq : List FlowEntry
  flows_putq_tmr : Option Nat
  deriving Repr, DecidableEq

/-- Embeds `flow_lookup` (table lookup by local port id). -/
def flow_lookup (dm : FlowDM) (port : Nat) : Option FlowEntry :=
  dm.flow_table.find? (fun f => f.local_port = port)

/-- Pointwise update of the flow with the given port id. -/
def flow_table_update (t : List FlowEntry) (port : Nat) (g : FlowEntry → FlowEntry) :
    List FlowEntry :=
  t.map (fun f => if f.local_port = port then g f else f)

/-- Sorted insertion of `flows_putq_add`: walk the queue and insert right
before the first entry whose expiration is strictly later (`time_after`), so
the queue stays in ascending expiration order and ties keep arrival order. -/
def putq_insert (p exp : Nat) : List (Nat × Nat) → List (Nat × Nat)
  | [] => [(p, exp)]
  | cur :: rest =>
    if exp < cur.2 then (p, exp) :: cur :: rest
    else cur :: putq_insert p exp rest

/-- Embeds `flows_putq_add` (called under the flow-table write lock): take a
put-queue reference (refcount increment); if the flow is not already queued
(`expires == ~0U`), stamp `expires = now + jdelta`, insert it into the
put-queue in ascending expiration order, and re-arm the put-queue timer to
the expiration of the new queue head. -/
def flows_putq_add (dm : FlowDM) (p : Nat) (now jdelta : Nat) : FlowDM :=
  match flow_lookup dm p with
  | none => dm
  | some fl =>
    let tbl0 := flow_table_update dm.flow_table p (fun f => { f with refcnt := f.refcnt + 1 })
    let dm1 := { dm with flow_table := tbl0 }
    match fl.expires with
    | some _ => dm1
    | none =>
      let exp := now + jdelta
      let tbl := flow_table_update dm1.flow_table p (fun f => { f with expires := some exp })
      let q := putq_insert p exp dm1.flows_putq
      { dm1 with
        flow_table := tbl
        flows_putq := q
        flows_putq_tmr := q.head?.map Prod.snd }

/-- Embeds `__flow_put` for the flow with port id `p`. A decrement that does
not reach zero only updates the counter. On the drop to zero the
DEALLOCATED flag is set; then either the removal is postponed (flow was
ALLOCATED, not yet DEL_POSTPONED and not NEVER_BOUND: mark DEL_POSTPONED,
re-raise the refcount and insert into the put-queue with delay
`flow_del_wait_ms` of the owning IPCP), or the flow is detached from the
flow table and port-id bitmap (and from the cep table and bitmap when the
IPCP uses cep ids) and appended to the removal queue (the scheduled work
item `flows_removew_func` destroys it later). The DTP inactivity-timer
bookkeeping inside the postpone branch carries no modelled state. Time is
kept in milliseconds (`msecs_to_jiffies` modelled as the identity). -/
def __flow_put (ipcp : IpcpEntry) (now : Nat) (dm : FlowDM) (p : Nat) : FlowDM :=
  match flow_lookup dm p with
  | none => dm
  | some fl =>
    if ¬ fl.refcnt = 1 then
      let tbl := flow_table_update dm.flow_table p (fun f => { f with refcnt := f.refcnt - 1 })
      { dm with flow_table := tbl }
    else
      let fl1 := { fl with refcnt := 0, deallocated := true }
      if ¬ fl.del_postponed ∧ fl.allocated ∧ ¬ fl.never_bound then
        let fl2 := { fl1 with del_postponed := true, refcnt := 1 }
        let dm1 := { dm with flow_table := flow_table_update dm.flow_table p (fun _ => fl2) }
        flows_putq_add dm1 p now ipcp.flow_del_wait_ms
      else
        { flow_table := dm.flow_table.filter (fun f => ¬ f.local_port = p)
          port_id_bitmap := dm.port_id_bitmap.filter (fun b => ¬ b = p)
          cep_table :=
            if ipcp.use_cep_ids then dm.cep_table.filter (fun c => ¬ c = fl.local_cep)
            else dm.cep_table
          cep_id_bitmap :=
            if ipcp.use_cep_ids then dm.cep_id_bitmap.filter (fun c => ¬ c = fl.local_cep)
            else dm.cep_id_bitmap
          flows_putq := dm.flows_putq
          flows_removeq := dm.flows_removeq ++ [fl1]
          flows_putq_tmr := dm.flows_putq_tmr }

/-- Embeds `rl_flow_shutdown` on one flow entry: only an ALLOCATED flow gets
the EOF condition and the DEALLOCATED flag; the ALLOCATED flag itself is not
cleared and the flow stays linked. The reader/poller wakeup carries no
state. -/
def rl_flow_shutdown (f : FlowEntry) : FlowEntry :=
  if f.allocated then { f with txrx_eof := true, deallocated := true } else f

/-- Embeds `rl_flow_dealloc` (the FLOW_DEALLOC handler): look the flow up by
port id (`flow_get`, which takes a reference); when it exists and its uid
matches the request, shut it down and return 0, else return `- ENXIO`; in
both cases the reference taken by the lookup is dropped again through
`flow_put` (so a caller holding the last other reference triggers the
`__flow_put` teardown). `ipcp` is the owning IPCP of the flow, used by the
embedded `__flow_put`. -/
def rl_flow_dealloc (ipcp : IpcpEntry) (now : Nat) (dm : FlowDM) (port uid : Nat) :
    FlowDM × Int :=
  match flow_lookup dm port with
  | none => (dm, - ENXIO)
  | some fl =>
    let tbl1 := flow_table_update dm.flow_table port (fun f => { f with refcnt := f.refcnt + 1 })
    let dm1 := { dm with flow_table := tbl1 }
    if fl.uid = uid then
      let dm2 := { dm1 with flow_table := flow_table_update dm1.flow_table port rl_flow_shutdown }
      (__flow_put ipcp now dm2 port, 0)
    else
      (__flow_put ipcp now dm1 port, - ENXIO)

/-! ## Core-handled IPCP configuration parameters (claim C7) -/

/-- Trailing-newline tolerance of the kernel `kstrtoX` parsers: a single
final newline is dropped before parsing. -/
def kstrtox_strip_newline (cs : List Char) : List Char :=
  match cs.getLast? with
  | some c => if c = '\n' then cs.dropLast else cs
  | none => cs

/-- Optional leading plus sign accepted by the kernel `kstrtoX` parsers. -/
def kstrtox_strip_plus (cs : List Char) : List Char :=
  match cs with
  | c :: rest => if c = '+' then rest else cs
  | [] => cs

/-- Decimal parser modelling the kernel functions `kstrtou16`/`kstrtou32`
(base 10), with the accepted value bound as a parameter: an optional single
trailing newline is tolerated, an optional leading plus sign is skipped,
then the digits are accumulated; the parse fails on an empty digit string,
on any non-digit character, or when the value reaches `bound`. The
`kstrtoX` family is kernel library code, not part of these sources; it is
embedded from its documented semantics. -/
def kstrtou_bounded (bound : Nat) (s : String) : Option Nat :=
  let cs := kstrtox_strip_plus (kstrtox_strip_newline s.data)
  if cs = [] then none
  else if cs.all (fun c => c.isDigit) then
    let v := cs.foldl (fun acc c => acc * 10 + (c.toNat - 48)) 0
    if v < bound then some v else none
  else none

/-- Character for one decimal digit (value below 10). -/
def digit_char (d : Nat) : Char :=
  if d = 0 then '0'
  else if d = 1 then '1'
  else if d = 2 then '2'
  else if d = 3 then '3'
  else if d = 4 then '4'
  else if d = 5 then '5'
  else if d = 6 then '6'
  else if d = 7 then '7'
  else if d = 8 then '8'
  else '9'

/-- Digits of `n` in base 10, most significant first, computed by repeated
division with explicit fuel (any fuel above `n` is enough, see
`decimal_digits_fuel_foldl`). -/
def decimal_digits_fuel : Nat → Nat → List Char
  | 0, _ => []
  | fuel + 1, n =>
    if n < 10 then [digit_char n]
    else decimal_digits_fuel fuel (n / 10) ++ [digit_char (n % 10)]

/-- Canonical decimal representation of an unsigned integer, as produced by
`snprintf("%u")` in `rl_ipcp_config_get`. -/
def u32_decimal (n : Nat) : String :=
  ⟨decimal_digits_fuel (n + 1) n⟩

/-- Embeds `rl_configstr_to_u32`'s parser (`kstrtou32`). -/
def kstrtou32 (s : String) : Option Nat :=
  kstrtou_bounded (2 ^ 32) s

/-- Embeds `rl_configstr_to_u16`'s parser (`kstrtou16`). -/
def kstrtou16 (s : String) : Option Nat :=
  kstrtou_bounded (2 ^ 16) s

/-- Embeds `rl_ipcp_config` for an existing IPCP entry. `factoryRet` is the
result of the factory's `ops.config` hook, `-ENOSYS` when the factory does
not handle the parameter or provides no hook; any other result is returned
as is (with no core-side change; a factory-driven notify is not modelled).
On `-ENOSYS` the core handles `txhdroom`, `rxhdroom`, `mss` (which updates
`max_sdu_size` and requests an UPDATE broadcast when the value changed) and
`flow-del-wait-ms`, rejecting unknown names with `-EINVAL`. Parse failures
are reported as `-EINVAL` (the C code forwards the `kstrtoX` error code,
`-EINVAL` or `-ERANGE`). The result is the updated entry, the return code,
and whether the UPDATE broadcast is triggered. -/
def rl_ipcp_config (e : IpcpEntry) (name value : String) (factoryRet : Int) :
    IpcpEntry × Int × Bool :=
  if ¬ factoryRet = -ENOSYS then (e, factoryRet, false)
  else if name = "txhdroom" then
    match kstrtou16 value with
    | some v => ({ e with txhdroom := v }, 0, false)
    | none => (e, -EINVAL, false)
  else if name = "rxhdroom" then
    match kstrtou16 value with
    | some v => ({ e with rxhdroom := v }, 0, false)
    | none => (e, -EINVAL, false)
  else if name = "mss" then
    match kstrtou32 value with
    | some v => ({ e with max_sdu_size := v }, 0, e.max_sdu_size != v)
    | none => (e, -EINVAL, false)
  else if name = "flow-del-wait-ms" then
    match kstrtou32 value with
    | some v => ({ e with flow_del_wait_ms := v }, 0, false)
    | none => (e, -EINVAL, false)
  else (e, -EINVAL, false)

/-- Embeds `rl_ipcp_config_get` for an existing IPCP entry: with
`factoryRet = -ENOSYS` the core prints the requested field with
`snprintf("%u")`, modelled by `u32_decimal` (the canonical decimal
representation); unknown names fail with `-EINVAL`. The returned string is
the `param_value` of the queued response; the upqueue append is assumed to
succeed. -/
def rl_ipcp_config_get (e : IpcpEntry) (param : String) (factoryRet : Int) :
    Int × Option String :=
  if ¬ factoryRet = -ENOSYS then (factoryRet, none)
  else if param = "txhdroom" then (0, some (u32_decimal e.txhdroom))
  else if param = "rxhdroom" then (0, some (u32_decimal e.rxhdroom))
  else if param = "mss" then (0, some (u32_decimal e.max_sdu_size))
  else if param = "flow-del-wait-ms" then (0, some (u32_decimal e.flow_del_wait_ms))
  else (-EINVAL, none)

/-! ## Message dispatcher (claim C8)

The RLITE_KER_* message-type enumeration lives in rlite/kernel-msg.h, which
is not among the sources. Modelled from the spec: the types named by the
handler table and capability switch of ctrl-dev.c and by the spec's message
family listing are assigned distinct consecutive codes; none of the claims
depends on the concrete numbering, only on which types have handlers and
which are privileged, both of which are taken verbatim from ctrl-dev.c. -/

def RLITE_KER_IPCP_CREATE : Nat := 1
def RLITE_KER_IPCP_CREATE_RESP : Nat := 2
def RLITE_KER_IPCP_DESTROY : Nat := 3
def RLITE_KER_FLOW_FETCH : Nat := 4
def RLITE_KER_FLOW_FETCH_RESP : Nat := 5
def RLITE_KER_IPCP_CONFIG : Nat := 6
def RLITE_KER_IPCP_PDUFT_SET : Nat := 7
def RLITE_KER_IPCP_PDUFT_DEL : Nat := 8
def RLITE_KER_IPCP_PDUFT_FLUSH : Nat := 9
def RLITE_KER_APPL_REGISTER : Nat := 10
def RLITE_KER_APPL_REGISTER_RESP : Nat := 11
def RLITE_KER_FA_REQ : Nat := 12
def RLITE_KER_FA_RESP : Nat := 13
def RLITE_KER_FA_REQ_ARRIVED : Nat := 14
def RLITE_KER_FA_RESP_ARRIVED : Nat := 15
def RLITE_KER_IPCP_UIPCP_SET : Nat := 16
def RLITE_KER_IPCP_UIPCP_WAIT : Nat := 17
def RLITE_KER_UIPCP_FA_REQ_ARRIVED : Nat := 18
def RLITE_KER_UIPCP_FA_RESP_ARRIVED : Nat := 19
def RLITE_KER_FLOW_DEALLOC : Nat := 20
def RLITE_KER_FLOW_DEALLOCATED : Nat := 21
def RLITE_KER_FLOW_STATS_REQ : Nat := 22
def RLITE_KER_FLOW_STATS_RESP : Nat := 23
def RLITE_KER_FLOW_CFG_UPDATE : Nat := 24
def RLITE_KER_IPCP_QOS_SUPPORTED : Nat := 25
def RLITE_KER_APPL_MOVE : Nat := 26
def RLITE_KER_REG_FETCH : Nat := 27
def RLITE_KER_REG_FETCH_RESP : Nat := 28
def RLITE_KER_IPCP_UPDATE : Nat := 29
def RLITE_KER_IPCP_STATS_REQ : Nat := 30
def RLITE_KER_IPCP_STATS_RESP : Nat := 31
def RLITE_KER_IPCP_CONFIG_GET_REQ : Nat := 32
def RLITE_KER_IPCP_CONFIG_GET_RESP : Nat := 33
def RLITE_KER_IPCP_SCHED_WRR : Nat := 34
def RLITE_KER_IPCP_SCHED_PFIFO : Nat := 35
def RLITE_KER_MSG_MAX : Nat := 35

/-- Message types with a registered handler, following the designated
initializers of the `rl_ctrl_handlers` table in ctrl-dev.c (the
RL_MEMTRACK-only entry is compiled out). -/
def rl_ctrl_handler_codes : List Nat :=
  [RLITE_KER_IPCP_CREATE, RLITE_KER_IPCP_DESTROY, RLITE_KER_FLOW_FETCH,
   RLITE_KER_IPCP_CONFIG, RLITE_KER_IPCP_PDUFT_SET, RLITE_KER_IPCP_PDUFT_DEL,
   RLITE_KER_IPCP_PDUFT_FLUSH, RLITE_KER_APPL_REGISTER,
   RLITE_KER_APPL_REGISTER_RESP, RLITE_KER_FA_REQ, RLITE_KER_FA_RESP,
   RLITE_KER_IPCP_UIPCP_SET, RLITE_KER_IPCP_UIPCP_WAIT,
   RLITE_KER_UIPCP_FA_REQ_ARRIVED, RLITE_KER_UIPCP_FA_RESP_ARRIVED,
   RLITE_KER_FLOW_DEALLOC, RLITE_KER_FLOW_STATS_REQ, RLITE_KER_FLOW_CFG_UPDATE,
   RLITE_KER_IPCP_QOS_SUPPORTED, RLITE_KER_APPL_MOVE, RLITE_KER_REG_FETCH,
   RLITE_KER_IPCP_STATS_REQ, RLITE_KER_IPCP_CONFIG_GET_REQ,
   RLITE_KER_IPCP_SCHED_WRR, RLITE_KER_IPCP_SCHED_PFIFO]

/-- Whether the handler table has an entry for this message type
(`rc->handlers[msg_type] != NULL`). -/
def rl_ctrl_has_handler (t : Nat) : Bool :=
  rl_ctrl_handler_codes.contains t

/-- Message types restricted to CAP_SYS_ADMIN by the capability switch of
`rl_ctrl_write` (exactly these ten; note that IPCP_PDUFT_DEL is not among
them). -/
def rl_priv_codes : List Nat :=
  [RLITE_KER_IPCP_CREATE, RLITE_KER_IPCP_DESTROY, RLITE_KER_IPCP_CONFIG,
   RLITE_KER_IPCP_PDUFT_SET, RLITE_KER_IPCP_PDUFT_FLUSH,
   RLITE_KER_APPL_REGISTER_RESP, RLITE_KER_IPCP_UIPCP_SET,
   RLITE_KER_UIPCP_FA_REQ_ARRIVED, RLITE_KER_UIPCP_FA_RESP_ARRIVED,
   RLITE_KER_FLOW_DEALLOC]

/-- Whether a message type requires CAP_SYS_ADMIN. -/
def rl_msg_privileged (t : Nat) : Bool :=
  rl_priv_codes.contains t

/-- Outcome of one control-device write: the return value of the write and
whether the message handler was invoked. -/
structure CtrlWriteOut where
  ret : Int
  handler_ran : Bool
  deriving Repr, DecidableEq

/-- Embeds the dispatch part of `rl_ctrl_write`, after the serialized
request of `len` bytes has been copied in and successfully deserialized into
a message of type `msgType` (undersized writes, copy faults and
deserialization failures return their own errors earlier and reach no
handler). A type above RLITE_KER_MSG_MAX or without a registered handler is
rejected with `-EINVAL`; a privileged type from a caller without
CAP_SYS_ADMIN (`capable`) is rejected with `-EPERM`; otherwise the handler
runs and the write returns `len` when the handler returns 0 and the
handler's negative error code otherwise. `handlerRet` gives the handler's
result for each message type. -/
def rl_ctrl_write (capable : Bool) (len : Nat) (msgType : Nat)
    (handlerRet : Nat → Int) : CtrlWriteOut :=
  if RLITE_KER_MSG_MAX < msgType ∨ ¬ rl_ctrl_has_handler msgType then
    ⟨-EINVAL, false⟩
  else if rl_msg_privileged msgType ∧ ¬ capable then
    ⟨-EPERM, false⟩
  else
    let r := handlerRet msgType
    if r = 0 then ⟨Int.ofNat len, true⟩ else ⟨r, true⟩

/-! ## Fetch cursors (claim C9) -/

/-- Embeds `struct rl_kmsg_flow_fetch_resp` (one entry of the flow
enumeration; `fetch_end` is the `end` field). -/
structure FlowFetchResp where
  event_id : Nat
  fetch_end : Bool
  ipcp_id : Nat
  local_port : Nat
  remote_port : Nat
  local_addr : Nat
  remote_addr : Nat
  flow_control : Bool
  deriving Repr, DecidableEq

/-- Address of the IPCP with the given id (`entry->txrx.ipcp->addr`), 0 when
absent. -/
def ipcp_addr_of (ipcps : List IpcpEntry) (i : Nat) : Nat :=
  match ipcps.find? (fun e => e.id = i) with
  | some e => e.addr
  | none => 0

/-- Snapshot entry built by `rl_flow_fetch` for one flow. -/
def flow_fetch_resp_of (ipcps : List IpcpEntry) (f : FlowEntry) : FlowFetchResp :=
  { event_id := 0
    fetch_end := false
    ipcp_id := f.ipcp_id
    local_port := f.local_port
    remote_port := f.remote_port
    local_addr := ipcp_addr_of ipcps f.ipcp_id
    remote_addr := f.remote_addr
    flow_control := f.flow_control }

/-- Terminator entry: all fields zeroed by `memset`, `end = 1`. -/
def flow_fetch_terminator : FlowFetchResp :=
  { event_id := 0
    fetch_end := true
    ipcp_id := 0
    local_port := 0
    remote_port := 0
    local_addr := 0
    remote_addr := 0
    flow_control := false }

/-- Whether a flow passes the optional IPCP-id filter of a fetch request
(`req->ipcp_id != 0xffff`, the no-filter sentinel, is modelled by `none`). -/
def flow_fetch_match (filter : Option Nat) (f : FlowEntry) : Bool :=
  match filter with
  | none => true
  | some i => f.ipcp_id = i

/-- Snapshot built by `rl_flow_fetch` when the fetch queue is empty: one
response per flow passing the filter, in table order, then the terminator.
Allocation failures, which would truncate the snapshot, are not modelled. -/
def flow_fetch_snapshot (ipcps : List IpcpEntry) (flows : List FlowEntry)
    (filter : Option Nat) : List FlowFetchResp :=
  (flows.filter (flow_fetch_match filter)).map (flow_fetch_resp_of ipcps) ++
    [flow_fetch_terminator]

/-- Flow-fetch state of one control device: the pending fetch queue
(`rc->flows_fetch_q`) and the responses enqueued upstream (serialization
into the byte-budgeted upqueue is abstracted; the append is assumed to
succeed). -/
structure FlowFetchCtrl where
  flows_fetch_q : List FlowFetchResp
  upstream : List FlowFetchResp
  deriving Repr, DecidableEq

/-- Embeds `rl_flow_fetch`: an explicit IPCP-id filter naming a missing IPCP
fails with `-EINVAL`; an empty fetch queue is refilled with the snapshot of
the current flow table; then the head of the (now nonempty) fetch queue is
popped, stamped with the request's event id and enqueued upstream. -/
def rl_flow_fetch (ipcps : List IpcpEntry) (flows : List FlowEntry)
    (rc : FlowFetchCtrl) (filter : Option Nat) (event_id : Nat) :
    FlowFetchCtrl × Int :=
  let valid := match filter with
    | none => true
    | some i => (ipcps.find? (fun e => e.id = i)).isSome
  if valid = false then (rc, -EINVAL)
  else
    let q1 := if rc.flows_fetch_q.isEmpty then flow_fetch_snapshot ipcps flows filter
              else rc.flows_fetch_q
    match q1 with
    | [] => ({ rc with flows_fetch_q := q1 }, -ENOMEM)
    | h :: t => (⟨t, rc.upstream ++ [{ h with event_id := event_id }]⟩, 0)

/-- Iterated flow fetch: `n` successive FLOW_FETCH requests with the same
filter and event id against an unchanged flow table. -/
def rl_flow_fetch_iter (ipcps : List IpcpEntry) (flows : List FlowEntry)
    (rc : FlowFetchCtrl) (filter : Option Nat) (event_id : Nat) : Nat → FlowFetchCtrl
  | 0 => rc
  | n + 1 =>
    (rl_flow_fetch ipcps flows (rl_flow_fetch_iter ipcps flows rc filter event_id n)
      filter event_id).1

/-- Embeds `struct rl_kmsg_reg_fetch_resp` (one entry of the registration
enumeration). -/
structure RegFetchResp where
  event_id : Nat
  fetch_end : Bool
  ipcp_id : Nat
  reg_pending : Bool
  appl_name : String
  deriving Repr, DecidableEq

/-- Snapshot entries built by `rl_reg_fetch` for one IPCP: one response per
registered application, `pending` set unless the registration is COMPLETE. -/
def reg_fetch_resps_of (e : IpcpEntry) : List RegFetchResp :=
  e.registered_appls.map (fun a =>
    { event_id := 0
      fetch_end := false
      ipcp_id := e.id
      reg_pending := a.state != ApplRegState.complete
      appl_name := a.name })

/-- Terminator entry of the registration enumeration. -/
def reg_fetch_terminator : RegFetchResp :=
  { event_id := 0
    fetch_end := true
    ipcp_id := 0
    reg_pending := false
    appl_name := "" }

/-- Whether an IPCP passes the optional id filter of a REG_FETCH request. -/
def reg_fetch_match (filter : Option Nat) (e : IpcpEntry) : Bool :=
  match filter with
  | none => true
  | some i => e.id = i

/-- Snapshot built by `rl_reg_fetch` when the fetch queue is empty: for each
IPCP passing the filter, one response per registered application, then the
terminator. -/
def reg_fetch_snapshot (ipcps : List IpcpEntry) (filter : Option Nat) :
    List RegFetchResp :=
  ((ipcps.filter (reg_fetch_match filter)).map reg_fetch_resps_of).flatten ++
    [reg_fetch_terminator]

/-- Registration-fetch state of one control device (`rc->regs_fetch_q` and
the upstream responses). -/
structure RegFetchCtrl where
  regs_fetch_q : List RegFetchResp
  upstream : List RegFetchResp
  deriving Repr, DecidableEq

/-- Embeds `rl_reg_fetch`, structurally identical to `rl_flow_fetch` over
the registration tables. -/
def rl_reg_fetch (ipcps : List IpcpEntry) (rc : RegFetchCtrl)
    (filter : Option Nat) (event_id : Nat) : RegFetchCtrl × Int :=
  let valid := match filter with
    | none => true
    | some i => (ipcps.find? (fun e => e.id = i)).isSome
  if valid = false then (rc, -EINVAL)
  else
    let q1 := if rc.regs_fetch_q.isEmpty then reg_fetch_snapshot ipcps filter
              else rc.regs_fetch_q
    match q1 with
    | [] => ({ rc with regs_fetch_q := q1 }, -ENOMEM)
    | h :: t => (⟨t, rc.upstream ++ [{ h with event_id := event_id }]⟩, 0)

/-- Iterated registration fetch: `n` successive REG_FETCH requests with the
same filter and event id against unchanged tables. -/
def rl_reg_fetch_iter (ipcps : List IpcpEntry) (rc : RegFetchCtrl)
    (filter : Option Nat) (event_id : Nat) : Nat → RegFetchCtrl
  | 0 => rc
  | n + 1 =>
    (rl_reg_fetch ipcps (rl_reg_fetch_iter ipcps rc filter event_id n)
      filter event_id).1

/-! ## Concrete fixtures used by witnesses and counterexamples -/

/-- Concrete flow entry for witnesses: an ALLOCATED, bound flow on port 5 of
IPCP 0 with uid 7 and two outstanding references. -/
def sample_flow : FlowEntry :=
  { local_port := 5
    local_cep := 3
    ipcp_id := 0
    uid := 7
    event_id := 42
    refcnt := 2
    pending := false
    allocated := true
    deallocated := false
    never_bound := false
    del_postponed := false
    initiator := true
    txrx_eof := false
    remote_port := 6
    remote_addr := 9
    flow_control := false
    expires := none }

/-- Concrete IPCP entry for witnesses. -/
def sample_ipcp : IpcpEntry :=
  ipcp_add_entry_init 0 "n" "d" "normal"

/-- Concrete IPCP entry with one COMPLETE registration, for fetch
witnesses. -/
def sample_reg_ipcp : IpcpEntry :=
  { sample_ipcp with
    registered_appls := [{ name := "srv"
                           rc := 3
                           event_id := 9
                           state := ApplRegState.complete
                           refcnt := 1 }] }

/-- Concrete flow data model holding `sample_flow`. -/
def sample_flow_dm : FlowDM :=
  { flow_table := [sample_flow]
    port_id_bitmap := [5]
    cep_table := [3]
    cep_id_bitmap := [3]
    flows_putq := []
    flows_removeq := []
    flows_putq_tmr := none }

/-! ## Helper lemmas -/

theorem rl_upqueue_append_overflow (hdr : Nat) (q : UpQueue) (serlen : Nat)
    (maysleep : Bool) (fuel : Nat)
    (h : RL_UPQUEUE_SIZE_MAX < q.size + upqentry_size hdr serlen) :
    rl_upqueue_append hdr q serlen maysleep fuel = (q, -ENOSPC) := by
  induction fuel with
  | zero =>
    unfold rl_upqueue_append
    simp [h]
  | succ f ih =>
    unfold rl_upqueue_append
    simp only [if_pos h]
    cases maysleep with
    | false => rfl
    | true => exact ih

theorem rl_upqueue_append_fits (hdr : Nat) (q : UpQueue) (serlen : Nat)
    (maysleep : Bool) (fuel : Nat)
    (h : ¬ RL_UPQUEUE_SIZE_MAX < q.size + upqentry_size hdr serlen) :
    rl_upqueue_append hdr q serlen maysleep fuel =
      (⟨q.entries ++ [serlen], q.size + upqentry_size hdr serlen⟩, 0) := by
  unfold rl_upqueue_append
  simp [h]

theorem upq_inv_append (hdr : Nat) (q : UpQueue) (serlen : Nat) (maysleep : Bool)
    (fuel : Nat) (h : upq_inv hdr q) :
    upq_inv hdr (rl_upqueue_append hdr q serlen maysleep fuel).1 := by
  by_cases ho : RL_UPQUEUE_SIZE_MAX < q.size + upqentry_size hdr serlen
  · rw [rl_upqueue_append_overflow hdr q serlen maysleep fuel ho]
    exact h
  · rw [rl_upqueue_append_fits hdr q serlen maysleep fuel ho]
    obtain ⟨hsum, _⟩ := h
    constructor
    · simp [List.map_append, hsum]
    · simpa using Nat.le_of_not_lt ho

theorem upq_inv_read (hdr : Nat) (q : UpQueue) (len : Nat) (h : upq_inv hdr q) :
    upq_inv hdr (rl_ctrl_read hdr q len).1 := by
  obtain ⟨es, sz⟩ := q
  obtain ⟨hsum, hle⟩ := h
  dsimp only at hsum hle
  unfold rl_ctrl_read
  by_cases hl : len = 0
  · simpa [hl] using And.intro hsum hle
  · simp only [if_neg hl]
    cases es with
    | nil => exact ⟨hsum, hle⟩
    | cons serlen rest =>
      by_cases hshort : len < serlen
      · simp only [if_pos hshort]
        exact ⟨hsum, hle⟩
      · simp only [if_neg hshort]
        unfold upq_inv
        dsimp only
        simp only [List.map_cons, List.sum_cons] at hsum
        unfold upqentry_size at hsum ⊢
        constructor <;> omega

/-! ## Claim theorems -/

/-- C4: for every control device, the upstream-queue size, accounted as the
sum over queued entries of entry_len + entry_header, never exceeds 16384
bytes after any append or read; an append that would exceed the budget
leaves the queue unchanged and fails with no-space — immediately when
may_block is false, and after the bounded wait (modelled by an arbitrary
retry fuel within the 5 ms deadline, during which no reader frees space in
this sequential model) when may_block is true. -/
theorem upqueue_budget_C4 (hdr : Nat) (q : UpQueue) (serlen len fuel : Nat)
    (maysleep : Bool) (hinv : upq_inv hdr q) :
    upq_inv hdr (rl_upqueue_append hdr q serlen maysleep fuel).1 ∧
    upq_inv hdr (rl_ctrl_read hdr q len).1 ∧
    (RL_UPQUEUE_SIZE_MAX < q.size + upqentry_size hdr serlen →
      rl_upqueue_append hdr q serlen maysleep fuel = (q, -ENOSPC)) := by
  refine ⟨upq_inv_append hdr q serlen maysleep fuel hinv,
          upq_inv_read hdr q len hinv, ?_⟩
  intro ho
  exact rl_upqueue_append_overflow hdr q serlen maysleep fuel ho

/-- Witness for C4 at a concrete queue: the invariant holds for a queue of
one 16320-byte message under a 32-byte entry header, appending one more
byte overflows and fails with no-space, and a 100-byte read drains it. -/
theorem upqueue_budget_C4_witness :
    upq_inv 32 ⟨[16352], 16384⟩ ∧
    (upq_inv 32 (rl_upqueue_append 32 ⟨[16352], 16384⟩ 1 true 3).1 ∧
     upq_inv 32 (rl_ctrl_read 32 ⟨[16352], 16384⟩ 16352).1 ∧
     (RL_UPQUEUE_SIZE_MAX < (16384 : Nat) + upqentry_size 32 1 →
       rl_upqueue_append 32 ⟨[16352], 16384⟩ 1 true 3 = (⟨[16352], 16384⟩, -ENOSPC))) :=
  ⟨by decide, upqueue_budget_C4 32 ⟨[16352], 16384⟩ 1 16352 3 true (by decide)⟩

/-- C5 counterexample: a read with a zero-length buffer, which is shorter
than the 8-byte message at the head of the queue, returns 0 (the
`while (len)` loop is never entered) and does not fail with buffer-too-small
as the claim states; the message is left queued. -/
theorem ctrl_read_C5_cex :
    rl_ctrl_read 32 ⟨[8], 40⟩ 0 = (⟨[8], 40⟩, 0, false) ∧
    (0 : Int) ≠ -ENOBUFS ∧ (0 : Nat) < 8 := by
  refine ⟨?_, by decide, by decide⟩
  rfl

/-- C5 (amended): a read with a nonzero buffer length shorter than the
serialized message at the head of the upstream queue fails with
buffer-too-small and the message is not consumed (queue contents and size
accounting unchanged); with a large enough buffer, exactly one whole message
is copied out and removed, its accounted size is subtracted from the queue
budget, and writers blocked on space are woken; a zero-length read returns 0
without consuming anything. -/
theorem ctrl_read_C5 (hdr : Nat) (q : UpQueue) (len serlen : Nat)
    (rest : List Nat) (hq : q.entries = serlen :: rest) (hlen : 0 < len) :
    (len < serlen → rl_ctrl_read hdr q len = (q, -ENOBUFS, false)) ∧
    (serlen ≤ len →
      rl_ctrl_read hdr q len =
        (⟨rest, q.size - upqentry_size hdr serlen⟩, Int.ofNat serlen, true)) ∧
    (rl_ctrl_read hdr q 0 = (q, 0, false)) := by
  obtain ⟨es, sz⟩ := q
  simp only at hq
  subst hq
  refine ⟨?_, ?_, ?_⟩
  · intro hshort
    unfold rl_ctrl_read
    simp [Nat.pos_iff_ne_zero.mp hlen, hshort]
  · intro hfits
    unfold rl_ctrl_read
    simp [Nat.pos_iff_ne_zero.mp hlen, Nat.not_lt_of_le hfits]
  · rfl

/-- Witness for C5 (amended) at a concrete queue holding one 8-byte message
under a 32-byte entry header: a 4-byte read fails with buffer-too-small
leaving the queue unchanged, an 8-byte read consumes the message, and a
zero-length read returns 0. -/
theorem ctrl_read_C5_witness :
    (4 < 8 → rl_ctrl_read 32 ⟨[8], 40⟩ 4 = (⟨[8], 40⟩, -ENOBUFS, false)) ∧
    (8 ≤ 4 →
      rl_ctrl_read 32 ⟨[8], 40⟩ 4 = (⟨[], 40 - upqentry_size 32 8⟩, Int.ofNat 8, true)) ∧
    (rl_ctrl_read 32 ⟨[8], 40⟩ 0 = (⟨[8], 40⟩, 0, false)) :=
  ctrl_read_C5 32 ⟨[8], 40⟩ 4 8 [] (by decide) (by decide)

theorem digit_char_isDigit (d : Nat) (h : d < 10) : (digit_char d).isDigit = true := by
  interval_cases d <;> decide

theorem digit_char_toNat (d : Nat) (h : d < 10) : (digit_char d).toNat - 48 = d := by
  interval_cases d <;> decide

theorem decimal_digits_fuel_digits (fuel : Nat) :
    ∀ n c, c ∈ decimal_digits_fuel fuel n → c.isDigit = true := by
  induction fuel with
  | zero => intro n c hc; simp [decimal_digits_fuel] at hc
  | succ f ih =>
    intro n c hc
    unfold decimal_digits_fuel at hc
    by_cases h10 : n < 10
    · simp only [if_pos h10, List.mem_singleton] at hc
      subst hc
      exact digit_char_isDigit n h10
    · simp only [if_neg h10, List.mem_append, List.mem_singleton] at hc
      rcases hc with hc | hc
      · exact ih (n / 10) c hc
      · subst hc
        exact digit_char_isDigit (n % 10) (Nat.mod_lt _ (by omega))

theorem decimal_digits_fuel_ne_nil (fuel n : Nat) (h : n < fuel) :
    decimal_digits_fuel fuel n ≠ [] := by
  cases fuel with
  | zero => omega
  | succ f =>
    unfold decimal_digits_fuel
    by_cases h10 : n < 10
    · simp [h10]
    · simp [h10]

theorem decimal_digits_fuel_foldl (fuel : Nat) :
    ∀ n acc, n < fuel →
      (decimal_digits_fuel fuel n).foldl (fun a c => a * 10 + (c.toNat - 48)) acc =
        acc * 10 ^ (decimal_digits_fuel fuel n).length + n := by
  induction fuel with
  | zero => intro n acc h; omega
  | succ f ih =>
    intro n acc h
    unfold decimal_digits_fuel
    by_cases h10 : n < 10
    · simp only [if_pos h10, List.foldl_cons, List.foldl_nil, List.length_singleton]
      rw [digit_char_toNat n h10]
      ring
    · simp only [if_neg h10, List.foldl_append, List.foldl_cons, List.foldl_nil,
        List.length_append, List.length_singleton]
      have hdiv : n / 10 < f := by
        have h1 : n / 10 < n := Nat.div_lt_self (by omega) (by omega)
        omega
      rw [ih (n / 10) acc hdiv]
      rw [digit_char_toNat (n % 10) (Nat.mod_lt _ (by omega))]
      rw [pow_succ]
      ring_nf
      omega

theorem kstrtou_bounded_decimal (bound n : Nat) (h : n < bound) :
    kstrtou_bounded bound (u32_decimal n) = some n := by
  have hdig : ∀ c ∈ decimal_digits_fuel (n + 1) n, c.isDigit = true :=
    fun c hc => decimal_digits_fuel_digits (n + 1) n c hc
  have hne : decimal_digits_fuel (n + 1) n ≠ [] :=
    decimal_digits_fuel_ne_nil (n + 1) n (by omega)
  have hstrip1 : kstrtox_strip_newline (decimal_digits_fuel (n + 1) n) =
      decimal_digits_fuel (n + 1) n := by
    unfold kstrtox_strip_newline
    cases hl : (decimal_digits_fuel (n + 1) n).getLast? with
    | none => rfl
    | some c =>
      have hmem : c ∈ decimal_digits_fuel (n + 1) n := by
        obtain ⟨hne2, hc⟩ := List.mem_getLast?_eq_getLast (l := decimal_digits_fuel (n + 1) n) hl
        rw [hc]
        exact List.getLast_mem hne2
      have hcd : c.isDigit = true := hdig c hmem
      have hcn : ¬ c = '\n' := by
        intro he
        rw [he] at hcd
        simp [Char.isDigit] at hcd
      simp [hcn]
  have hstrip2 : kstrtox_strip_plus (decimal_digits_fuel (n + 1) n) =
      decimal_digits_fuel (n + 1) n := by
    unfold kstrtox_strip_plus
    cases hd : decimal_digits_fuel (n + 1) n with
    | nil => rfl
    | cons c rest =>
      have hcd : c.isDigit = true := by
        apply hdig
        rw [hd]
        exact List.mem_cons_self c rest
      have hcp : ¬ c = '+' := by
        intro he
        rw [he] at hcd
        simp [Char.isDigit] at hcd
      simp [hcp]
  unfold kstrtou_bounded u32_decimal
  simp only [hstrip1, hstrip2]
  rw [if_neg (by simpa using hne)]
  rw [if_pos (List.all_eq_true.mpr (fun c hc => hdig c hc))]
  rw [decimal_digits_fuel_foldl (n + 1) n 0 (by omega)]
  simp [h]

/-- C7 (amended): for every existing IPCP whose factory does not itself
handle the parameter (its `ops.config`/`ops.config_get` outcome is
`-ENOSYS`), and for every value n below 2^32 with canonical decimal
representation v, IPCP_CONFIG(I, "mss", v) succeeds, stores n in
`max_sdu_size`, and a subsequent IPCP_CONFIG_GET(I, "mss") returns exactly
the string v (round-trip through the `max_sdu_size` field). For
non-canonical decimal spellings of n (leading zeros or a leading plus sign,
also accepted by kstrtou32) the configuration succeeds as well, but the get
returns the canonical form rather than the original string. -/
theorem ipcp_config_mss_roundtrip_C7 (e : IpcpEntry) (n : Nat) (hn : n < 2 ^ 32) :
    rl_ipcp_config e "mss" (u32_decimal n) (-ENOSYS) =
      ({ e with max_sdu_size := n }, 0, e.max_sdu_size != n) ∧
    rl_ipcp_config_get (rl_ipcp_config e "mss" (u32_decimal n) (-ENOSYS)).1 "mss"
      (-ENOSYS) = (0, some (u32_decimal n)) := by
  have hparse : kstrtou32 (u32_decimal n) = some n := kstrtou_bounded_decimal _ n hn
  have hcfg : rl_ipcp_config e "mss" (u32_decimal n) (-ENOSYS) =
      ({ e with max_sdu_size := n }, 0, e.max_sdu_size != n) := by
    unfold rl_ipcp_config
    simp [hparse]
  refine ⟨hcfg, ?_⟩
  rw [hcfg]
  unfold rl_ipcp_config_get
  simp

/-- Witness for C7 (amended) at a concrete IPCP and the value 4096. -/
theorem ipcp_config_mss_roundtrip_C7_witness :
    rl_ipcp_config (ipcp_add_entry_init 0 "x" "d" "normal") "mss"
        (u32_decimal 4096) (-ENOSYS) =
      ({ ipcp_add_entry_init 0 "x" "d" "normal" with max_sdu_size := 4096 }, 0,
        (ipcp_add_entry_init 0 "x" "d" "normal").max_sdu_size != 4096) ∧
    rl_ipcp_config_get
      (rl_ipcp_config (ipcp_add_entry_init 0 "x" "d" "normal") "mss"
        (u32_decimal 4096) (-ENOSYS)).1 "mss" (-ENOSYS) =
      (0, some (u32_decimal 4096)) :=
  ipcp_config_mss_roundtrip_C7 (ipcp_add_entry_init 0 "x" "d" "normal") 4096
    (by norm_num)

/-- C7 counterexample: "007" is a decimal string denoting the 32-bit value 7
and the factory does not handle "mss"; IPCP_CONFIG(I, "mss", "007") succeeds
(kstrtou32 accepts leading zeros) and stores 7, but a subsequent
IPCP_CONFIG_GET(I, "mss") returns the string "7", not "007", so the
round-trip does not return the original string. -/
theorem ipcp_config_mss_roundtrip_C7_cex :
    (rl_ipcp_config (ipcp_add_entry_init 0 "x" "d" "normal") "mss" "007"
      (-ENOSYS)).2.1 = 0 ∧
    (rl_ipcp_config (ipcp_add_entry_init 0 "x" "d" "normal") "mss" "007"
      (-ENOSYS)).1.max_sdu_size = 7 ∧
    rl_ipcp_config_get
      (rl_ipcp_config (ipcp_add_entry_init 0 "x" "d" "normal") "mss" "007"
        (-ENOSYS)).1 "mss" (-ENOSYS) = (0, some "7") ∧
    ("7" : String) ≠ "007" := by
  refine ⟨?_, ?_, ?_, by decide⟩ <;> rfl

/-- C8: for every request reaching the dispatcher of `rl_ctrl_write`: a
message type above RLITE_KER_MSG_MAX or without a registered handler fails
with invalid and no handler runs; a type in the privileged set from an
unprivileged caller fails with a permission error and no handler runs;
otherwise the handler runs and the write returns the request byte count
exactly when the handler returns success, and the handler's negative error
code otherwise. -/
theorem ctrl_write_dispatch_C8 (capable : Bool) (len msgType : Nat)
    (handlerRet : Nat → Int) :
    ((RLITE_KER_MSG_MAX < msgType ∨ rl_ctrl_has_handler msgType = false) →
      rl_ctrl_write capable len msgType handlerRet = ⟨-EINVAL, false⟩) ∧
    (rl_msg_privileged msgType = true → capable = false →
      ¬ RLITE_KER_MSG_MAX < msgType → rl_ctrl_has_handler msgType = true →
      rl_ctrl_write capable len msgType handlerRet = ⟨-EPERM, false⟩) ∧
    (¬ RLITE_KER_MSG_MAX < msgType → rl_ctrl_has_handler msgType = true →
      (rl_msg_privileged msgType = false ∨ capable = true) →
      ((handlerRet msgType = 0 →
         rl_ctrl_write capable len msgType handlerRet = ⟨Int.ofNat len, true⟩) ∧
       (¬ handlerRet msgType = 0 →
         rl_ctrl_write capable len msgType handlerRet = ⟨handlerRet msgType, true⟩))) := by
  refine ⟨?_, ?_, ?_⟩
  · intro h
    unfold rl_ctrl_write
    rcases h with h | h
    · rw [if_pos (Or.inl h)]
    · rw [if_pos (Or.inr (by simp [h]))]
  · intro hpriv hcap hmax hhandler
    unfold rl_ctrl_write
    rw [if_neg (by simp [hmax, hhandler]), if_pos (by simp [hpriv, hcap])]
  · intro hmax hhandler hok
    have hguard : ¬ (rl_msg_privileged msgType ∧ ¬ capable) := by
      rcases hok with h | h
      · simp [h]
      · simp [h]
    constructor
    · intro hret
      unfold rl_ctrl_write
      rw [if_neg (by simp [hmax, hhandler]), if_neg hguard]
      simp [hret]
    · intro hret
      unfold rl_ctrl_write
      rw [if_neg (by simp [hmax, hhandler]), if_neg hguard]
      simp [hret]

/-- Witness for C8 at concrete requests from an unprivileged caller: type 36
is above the maximum and fails with invalid, FLOW_DEALLOC is privileged and
fails with a permission error, FLOW_FETCH is unprivileged and succeeds
returning the byte count. -/
theorem ctrl_write_dispatch_C8_witness :
    rl_ctrl_write false 64 36 (fun _ => 0) = ⟨-EINVAL, false⟩ ∧
    rl_ctrl_write false 64 RLITE_KER_FLOW_DEALLOC (fun _ => 0) = ⟨-EPERM, false⟩ ∧
    rl_ctrl_write false 64 RLITE_KER_FLOW_FETCH (fun _ => 0) = ⟨Int.ofNat 64, true⟩ :=
  ⟨(ctrl_write_dispatch_C8 false 64 36 (fun _ => 0)).1 (Or.inl (by decide)),
   (ctrl_write_dispatch_C8 false 64 RLITE_KER_FLOW_DEALLOC (fun _ => 0)).2.1
     (by decide) rfl (by decide) (by decide),
   ((ctrl_write_dispatch_C8 false 64 RLITE_KER_FLOW_FETCH (fun _ => 0)).2.2
     (by decide) (by decide) (Or.inl (by decide))).1 rfl⟩

/-- C3: registering an application name on an IPCP when an identical
registration already exists on the same control device returns the positive
already-registered sentinel (1) and leaves all state unchanged, so repeating
APPL_REGISTER from the same device is idempotent; registering the same name
from a different control device fails with busy, also leaving state
unchanged; otherwise (no existing registration with that name, and the
kernel-side hook, when present, succeeding) a new entry is created in state
PENDING when a uipcp will respond and COMPLETE otherwise. -/
theorem appl_register_idempotent_C3 (ipcp : IpcpEntry) (appl_name : String)
    (rc event_id : Nat) (uipcp : Bool) (hookRet : Int) :
    (∀ app, ipcp.registered_appls.find? (fun a => a.name = appl_name) = some app →
      ((app.rc = rc →
         ipcp_application_add ipcp appl_name rc event_id uipcp hookRet = (ipcp, 1)) ∧
       (¬ app.rc = rc →
         ipcp_application_add ipcp appl_name rc event_id uipcp hookRet =
           (ipcp, -EBUSY)))) ∧
    (ipcp.registered_appls.find? (fun a => a.name = appl_name) = none →
      (ipcp.has_appl_register_hook = false ∨ hookRet = 0) →
      ipcp_application_add ipcp appl_name rc event_id uipcp hookRet =
        ({ ipcp with
           registered_appls := ipcp.registered_appls ++
             [{ name := appl_name
                rc := rc
                event_id := event_id
                state := if uipcp then ApplRegState.pending else ApplRegState.complete
                refcnt := 1 }]
           refcnt := ipcp.refcnt + 1 }, 0)) := by
  constructor
  · intro app hfind
    constructor
    · intro hrc
      unfold ipcp_application_add
      rw [hfind]
      simp [hrc]
    · intro hrc
      unfold ipcp_application_add
      rw [hfind]
      simp [hrc]
  · intro hfind hok
    unfold ipcp_application_add
    rw [hfind]
    rcases hok with h | h
    · simp [h]
    · by_cases hh : ipcp.has_appl_register_hook
      · simp [hh, h]
      · simp [hh]

/-- Witness for C3: registering "srv" from control device 3 on a fresh IPCP
creates a PENDING entry; registering "srv" from device 3 again returns the
sentinel 1 and changes nothing; registering "srv" from device 4 fails with
busy. -/
theorem appl_register_idempotent_C3_witness :
    ipcp_application_add (ipcp_add_entry_init 0 "x" "d" "normal") "srv" 3 9 true 0 =
      ({ ipcp_add_entry_init 0 "x" "d" "normal" with
         registered_appls := [{ name := "srv"
                                rc := 3
                                event_id := 9
                                state := ApplRegState.pending
                                refcnt := 1 }]
         refcnt := 2 }, 0) ∧
    ipcp_application_add
      ({ ipcp_add_entry_init 0 "x" "d" "normal" with
         registered_appls := [{ name := "srv"
                                rc := 3
                                event_id := 9
                                state := ApplRegState.pending
                                refcnt := 1 }]
         refcnt := 2 }) "srv" 3 9 true 0 =
      ({ ipcp_add_entry_init 0 "x" "d" "normal" with
         registered_appls := [{ name := "srv"
                                rc := 3
                                event_id := 9
                                state := ApplRegState.pending
                                refcnt := 1 }]
         refcnt := 2 }, 1) ∧
    ipcp_application_add
      ({ ipcp_add_entry_init 0 "x" "d" "normal" with
         registered_appls := [{ name := "srv"
                                rc := 3
                                event_id := 9
                                state := ApplRegState.pending
                                refcnt := 1 }]
         refcnt := 2 }) "srv" 4 11 true 0 =
      ({ ipcp_add_entry_init 0 "x" "d" "normal" with
         registered_appls := [{ name := "srv"
                                rc := 3
                                event_id := 9
                                state := ApplRegState.pending
                                refcnt := 1 }]
         refcnt := 2 }, -EBUSY) := by
  refine ⟨?_, ?_, ?_⟩
  · have h := (appl_register_idempotent_C3 (ipcp_add_entry_init 0 "x" "d" "normal")
      "srv" 3 9 true 0).2 (by rfl) (Or.inl (by rfl))
    simpa using h
  · exact ((appl_register_idempotent_C3
      ({ ipcp_add_entry_init 0 "x" "d" "normal" with
         registered_appls := [{ name := "srv"
                                rc := 3
                                event_id := 9
                                state := ApplRegState.pending
                                refcnt := 1 }]
         refcnt := 2 }) "srv" 3 9 true 0).1
      { name := "srv", rc := 3, event_id := 9, state := ApplRegState.pending,
        refcnt := 1 } (by rfl)).1 (by rfl)
  · exact ((appl_register_idempotent_C3
      ({ ipcp_add_entry_init 0 "x" "d" "normal" with
         registered_appls := [{ name := "srv"
                                rc := 3
                                event_id := 9
                                state := ApplRegState.pending
                                refcnt := 1 }]
         refcnt := 2 }) "srv" 4 11 true 0).1
      { name := "srv", rc := 3, event_id := 9, state := ApplRegState.pending,
        refcnt := 1 } (by rfl)).2 (by decide)

theorem ipcp_select_loop_mem (d : Option String) :
    ∀ (t : List IpcpEntry) (sel : Option IpcpEntry) (e : IpcpEntry),
      ipcp_select_loop d sel t = some e →
      (e ∈ t ∧ e.zombie = false) ∨ sel = some e := by
  intro t
  induction t with
  | nil =>
    intro sel e h
    right
    simpa [ipcp_select_loop] using h
  | cons a rest ih =>
    intro sel e h
    unfold ipcp_select_loop at h
    by_cases hz : a.zombie = true
    · simp only [hz, if_true] at h
      rcases ih sel e h with h1 | h1
      · exact Or.inl ⟨List.mem_cons_of_mem a h1.1, h1.2⟩
      · exact Or.inr h1
    · have hz2 : a.zombie = false := by simpa using hz
      simp only [hz2, Bool.false_eq_true, if_false] at h
      cases d with
      | some dn =>
        dsimp only at h
        by_cases hn : a.dif_name = dn
        · rw [if_pos hn] at h
          exact Or.inl ⟨by simp [Option.some_inj.mp h.symm], by
            rw [← Option.some_inj.mp h]; exact hz2⟩
        · rw [if_neg hn] at h
          rcases ih sel e h with h1 | h1
          · exact Or.inl ⟨List.mem_cons_of_mem a h1.1, h1.2⟩
          · exact Or.inr h1
      | none =>
        cases sel with
        | none =>
          rcases ih (some a) e h with h1 | h1
          · exact Or.inl ⟨List.mem_cons_of_mem a h1.1, h1.2⟩
          · have hea : e = a := (Option.some_inj.mp h1).symm
            exact Or.inl ⟨by rw [hea]; exact List.mem_cons_self a rest,
              by rw [hea]; exact hz2⟩
        | some s =>
          dsimp only at h
          by_cases hc : a.dif_ty = "normal" ∧ (¬ s.dif_ty = "normal" ∨ s.txhdroom < a.txhdroom)
          · rw [if_pos hc] at h
            rcases ih (some a) e h with h1 | h1
            · exact Or.inl ⟨List.mem_cons_of_mem a h1.1, h1.2⟩
            · have hea : e = a := (Option.some_inj.mp h1).symm
              exact Or.inl ⟨by rw [hea]; exact List.mem_cons_self a rest,
                by rw [hea]; exact hz2⟩
          · rw [if_neg hc] at h
            rcases ih (some s) e h with h1 | h1
            · exact Or.inl ⟨List.mem_cons_of_mem a h1.1, h1.2⟩
            · exact Or.inr h1

theorem ipcp_select_loop_some :
    ∀ (t : List IpcpEntry) (sel : Option IpcpEntry),
      (sel.isSome = true ∨ ∃ e ∈ t, e.zombie = false) →
      (ipcp_select_loop none sel t).isSome = true := by
  intro t
  induction t with
  | nil =>
    intro sel h
    rcases h with h | ⟨e, he, _⟩
    · simpa [ipcp_select_loop] using h
    · simp at he
  | cons a rest ih =>
    intro sel h
    unfold ipcp_select_loop
    by_cases hz : a.zombie = true
    · simp only [hz, if_true]
      apply ih
      rcases h with h | ⟨e, he, hez⟩
      · exact Or.inl h
      · rcases List.mem_cons.mp he with he1 | he1
        · rw [he1] at hez
          rw [hez] at hz
          simp at hz
        · exact Or.inr ⟨e, he1, hez⟩
    · have hz2 : a.zombie = false := by simpa using hz
      simp only [hz2, Bool.false_eq_true, if_false]
      cases sel with
      | none => exact ih (some a) (Or.inl rfl)
      | some s =>
        dsimp only
        by_cases hc : a.dif_ty = "normal" ∧ (¬ s.dif_ty = "normal" ∨ s.txhdroom < a.txhdroom)
        · rw [if_pos hc]
          exact ih (some a) (Or.inl rfl)
        · rw [if_neg hc]
          exact ih (some s) (Or.inl rfl)

theorem ipcp_select_loop_normal :
    ∀ (t : List IpcpEntry) (sel : Option IpcpEntry) (e : IpcpEntry),
      ipcp_select_loop none sel t = some e →
      (∀ s, sel = some s → s.dif_ty = "normal" →
        e.dif_ty = "normal" ∧ s.txhdroom ≤ e.txhdroom) ∧
      (∀ f ∈ t, f.zombie = false → f.dif_ty = "normal" →
        e.dif_ty = "normal" ∧ f.txhdroom ≤ e.txhdroom) := by
  intro t
  induction t with
  | nil =>
    intro sel e h
    have hsel : sel = some e := by simpa [ipcp_select_loop] using h
    constructor
    · intro s hs hnorm
      rw [hsel] at hs
      have : e = s := Option.some_inj.mp hs
      rw [this]
      exact ⟨hnorm, le_refl _⟩
    · intro f hf
      simp at hf
  | cons a rest ih =>
    intro sel e h
    unfold ipcp_select_loop at h
    by_cases hz : a.zombie = true
    · simp only [hz, if_true] at h
      obtain ⟨ih1, ih2⟩ := ih sel e h
      refine ⟨ih1, ?_⟩
      intro f hf hfz hfn
      rcases List.mem_cons.mp hf with hf1 | hf1
      · rw [hf1] at hfz
        rw [hfz] at hz
        simp at hz
      · exact ih2 f hf1 hfz hfn
    · have hz2 : a.zombie = false := by simpa using hz
      simp only [hz2, Bool.false_eq_true, if_false] at h
      cases sel with
      | none =>
        obtain ⟨ih1, ih2⟩ := ih (some a) e h
        constructor
        · intro s hs
          exact absurd hs (by simp)
        · intro f hf hfz hfn
          rcases List.mem_cons.mp hf with hf1 | hf1
          · rw [hf1]
            exact ih1 a rfl (hf1 ▸ hfn)
          · exact ih2 f hf1 hfz hfn
      | some s =>
        dsimp only at h
        by_cases hc : a.dif_ty = "normal" ∧ (¬ s.dif_ty = "normal" ∨ s.txhdroom < a.txhdroom)
        · rw [if_pos hc] at h
          obtain ⟨ih1, ih2⟩ := ih (some a) e h
          constructor
          · intro s0 hs0 hs0n
            have hss : s0 = s := Option.some_inj.mp hs0.symm
            rcases hc.2 with hcn | hcn
            · rw [hss] at hs0n
              exact absurd hs0n hcn
            · have := ih1 a rfl hc.1
              exact ⟨this.1, by rw [hss]; omega⟩
          · intro f hf hfz hfn
            rcases List.mem_cons.mp hf with hf1 | hf1
            · rw [hf1]
              exact ih1 a rfl (hf1 ▸ hfn)
            · exact ih2 f hf1 hfz hfn
        · rw [if_neg hc] at h
          obtain ⟨ih1, ih2⟩ := ih (some s) e h
          constructor
          · intro s0 hs0
            have hss : s0 = s := Option.some_inj.mp hs0.symm
            rw [hss]
            exact ih1 s rfl
          · intro f hf hfz hfn
            rcases List.mem_cons.mp hf with hf1 | hf1
            · push_neg at hc
              have hcc := hc (hf1 ▸ hfn)
              have hsn : s.dif_ty = "normal" := hcc.1
              have hstx : a.txhdroom ≤ s.txhdroom := hcc.2
              have := ih1 s rfl hsn
              refine ⟨this.1, ?_⟩
              rw [hf1]
              omega
            · exact ih2 f hf1 hfz hfn

theorem mem_ipcp_table_update (t : List IpcpEntry) (id : Nat)
    (g : IpcpEntry → IpcpEntry) (e : IpcpEntry)
    (h : e ∈ ipcp_table_update t id g) :
    (∃ x, x ∈ t ∧ x.id = id ∧ e = g x) ∨ (e ∈ t ∧ ¬ e.id = id) := by
  unfold ipcp_table_update at h
  rcases List.mem_map.mp h with ⟨x, hx, he⟩
  by_cases hid : x.id = id
  · left
    refine ⟨x, hx, hid, ?_⟩
    rw [← he]
    simp [hid]
  · right
    have hex : e = x := by
      rw [← he]
      simp [hid]
    rw [hex]
    exact ⟨hx, hid⟩

theorem ipcp_put_table_zombie (dm : IpcpDM) (id : Nat)
    (hP : ∀ e ∈ dm.ipcp_table, e.id = id → e.zombie = true) :
    ∀ e ∈ (__ipcp_put dm id).ipcp_table, e.id = id → e.zombie = true := by
  unfold __ipcp_put
  cases hl : ipcp_lookup dm id with
  | none => exact hP
  | some e0 =>
    by_cases hrc : e0.refcnt = 1
    · simp only [hrc, if_true]
      intro e he heid
      have := List.mem_filter.mp he
      simp only [decide_eq_true_eq] at this
      exact absurd heid this.2
    · simp only [hrc, if_false]
      intro e he heid
      rcases mem_ipcp_table_update dm.ipcp_table id _ e he with ⟨x, hx, hxid, hex⟩ | ⟨hmem, hne⟩
      · have hz : x.zombie = true := hP x hx hxid
        rw [hex]
        simpa using hz
      · exact absurd heid hne

theorem ipcp_del_zombifies (dm : IpcpDM) (id : Nat)
    (h : (ipcp_del dm id).2 = 0) :
    ∀ e ∈ (ipcp_del dm id).1.ipcp_table, e.id = id → e.zombie = true := by
  unfold ipcp_del at h ⊢
  by_cases h1 : IPCP_ID_BITMAP_SIZE ≤ id
  · rw [if_pos h1] at h
    simp [ ENXIO] at h
  · rw [if_neg h1] at h ⊢
    cases hl : ipcp_lookup dm id with
    | none =>
      rw [hl] at h
      simp [ ENXIO] at h
    | some e0 =>
      rw [hl] at h
      dsimp only at h ⊢
      by_cases hz : e0.zombie = true
      · rw [if_pos hz] at h
        simp [ ENXIO] at h
      · rw [if_neg hz] at h ⊢
        dsimp only
        apply ipcp_put_table_zombie
        intro e he heid
        rcases mem_ipcp_table_update dm.ipcp_table id _ e he with ⟨x, hx, hxid, hex⟩ | ⟨hmem, hne⟩
        · rw [hex]
        · exact absurd heid hne

/-- C2: IPCP selection by DIF never returns a ZOMBIE entry; after a
successful IPCP_DESTROY of id I, no future selection (by DIF name or not)
returns an entry with id I, because the entry is either unlinked or marked
ZOMBIE while still referenced; when the caller names no DIF, selection
returns some entry whenever a non-zombie entry exists, and whenever any
non-zombie "normal"-DIF entry exists the selected entry is in a "normal"
DIF with tx header room at least that of every non-zombie normal entry. -/
theorem ipcp_select_by_dif_C2 (table : List IpcpEntry) (dm : IpcpDM) (id : Nat)
    (d : Option String) :
    (∀ e, ipcp_select_by_dif table d = some e → e.zombie = false ∧ e ∈ table) ∧
    ((∃ e ∈ table, e.zombie = false) →
      (ipcp_select_by_dif table none).isSome = true) ∧
    (∀ e, ipcp_select_by_dif table none = some e →
      ∀ f ∈ table, f.zombie = false → f.dif_ty = "normal" →
        e.dif_ty = "normal" ∧ f.txhdroom ≤ e.txhdroom) ∧
    ((ipcp_del dm id).2 = 0 →
      ∀ e, ipcp_select_by_dif (ipcp_del dm id).1.ipcp_table d = some e →
        ¬ e.id = id) := by
  refine ⟨?_, ?_, ?_, ?_⟩
  · intro e h
    rcases ipcp_select_loop_mem d table none e h with h1 | h1
    · exact ⟨h1.2, h1.1⟩
    · exact absurd h1 (by simp)
  · intro h
    exact ipcp_select_loop_some table none (Or.inr h)
  · intro e h
    exact (ipcp_select_loop_normal table none e h).2
  · intro hdel e hsel heid
    have hm : e ∈ (ipcp_del dm id).1.ipcp_table ∧ e.zombie = false := by
      rcases ipcp_select_loop_mem d (ipcp_del dm id).1.ipcp_table none e hsel with h1 | h1
      · exact h1
      · exact absurd h1 (by simp)
    have hz : e.zombie = true := ipcp_del_zombifies dm id hdel e hm.1 heid
    rw [hz] at hm
    simp at hm

/-- Witness for C2 on a concrete table of three IPCPs (one zombie, two in
"normal" DIFs with tx header rooms 5 and 9) and a concrete destroy of a
still-referenced IPCP: the selected entry is non-zombie and in the table,
selection succeeds, the selected entry out-ranks the other normal entry,
and after IPCP_DESTROY(7) selection does not return id 7. -/
theorem ipcp_select_by_dif_C2_witness :
    (({ ipcp_add_entry_init 2 "c" "d2" "normal" with txhdroom := 9 } : IpcpEntry).zombie = false ∧
     ({ ipcp_add_entry_init 2 "c" "d2" "normal" with txhdroom := 9 } : IpcpEntry) ∈
       [{ ipcp_add_entry_init 0 "a" "dz" "normal" with zombie := true },
        { ipcp_add_entry_init 1 "b" "d1" "normal" with txhdroom := 5 },
        { ipcp_add_entry_init 2 "c" "d2" "normal" with txhdroom := 9 }]) ∧
    (ipcp_select_by_dif
       [{ ipcp_add_entry_init 0 "a" "dz" "normal" with zombie := true },
        { ipcp_add_entry_init 1 "b" "d1" "normal" with txhdroom := 5 },
        { ipcp_add_entry_init 2 "c" "d2" "normal" with txhdroom := 9 }] none).isSome = true ∧
    (({ ipcp_add_entry_init 2 "c" "d2" "normal" with txhdroom := 9 } : IpcpEntry).dif_ty = "normal" ∧
     ({ ipcp_add_entry_init 1 "b" "d1" "normal" with txhdroom := 5 } : IpcpEntry).txhdroom ≤
       ({ ipcp_add_entry_init 2 "c" "d2" "normal" with txhdroom := 9 } : IpcpEntry).txhdroom) ∧
    ¬ (ipcp_add_entry_init 8 "h" "d8" "normal").id = 7 := by
  have h := ipcp_select_by_dif_C2
    [{ ipcp_add_entry_init 0 "a" "dz" "normal" with zombie := true },
     { ipcp_add_entry_init 1 "b" "d1" "normal" with txhdroom := 5 },
     { ipcp_add_entry_init 2 "c" "d2" "normal" with txhdroom := 9 }]
    ⟨[{ ipcp_add_entry_init 7 "g" "d7" "normal" with refcnt := 2 },
      ipcp_add_entry_init 8 "h" "d8" "normal"], [7, 8]⟩ 7 none
  refine ⟨h.1 { ipcp_add_entry_init 2 "c" "d2" "normal" with txhdroom := 9 } (by decide),
          h.2.1 (by decide), ?_, ?_⟩
  · exact h.2.2.1 { ipcp_add_entry_init 2 "c" "d2" "normal" with txhdroom := 9 }
      (by decide) { ipcp_add_entry_init 1 "b" "d1" "normal" with txhdroom := 5 }
      (by decide) (by decide) (by decide)
  · exact h.2.2.2 (by decide) (ipcp_add_entry_init 8 "h" "d8" "normal") (by decide)

theorem ipcp_find_update (t : List IpcpEntry) (id : Nat) (g : IpcpEntry → IpcpEntry)
    (e : IpcpEntry) (h : t.find? (fun x => x.id = id) = some e)
    (hg : (g e).id = id) :
    (ipcp_table_update t id g).find? (fun x => x.id = id) = some (g e) := by
  induction t with
  | nil => simp at h
  | cons a rest ih =>
    by_cases hid : a.id = id
    · rw [List.find?_cons_of_pos _ (by simp [hid])] at h
      have hae : a = e := Option.some_inj.mp h
      subst hae
      unfold ipcp_table_update
      simp only [List.map_cons, if_pos hid]
      rw [List.find?_cons_of_pos _ (by simp [hg])]
    · rw [List.find?_cons_of_neg _ (by simp [hid])] at h
      unfold ipcp_table_update at ih ⊢
      simp only [List.map_cons, if_neg hid]
      rw [List.find?_cons_of_neg _ (by simp [hid])]
      exact ih h

theorem ipcp_del_still_referenced (dm : IpcpDM) (id : Nat) (e : IpcpEntry)
    (hfind : ipcp_lookup dm id = some e) (hz : e.zombie = false)
    (hrc : 2 ≤ e.refcnt) (hid : id < IPCP_ID_BITMAP_SIZE) :
    (ipcp_del dm id).2 = 0 ∧
    ipcp_lookup (ipcp_del dm id).1 id =
      some { e with zombie := true, refcnt := e.refcnt - 1 } := by
  have heid : e.id = id := by
    have := List.find?_some hfind
    simpa using this
  unfold ipcp_del
  rw [if_neg (by omega), hfind]
  dsimp only
  rw [if_neg (by simp [hz])]
  dsimp only
  have hfind2 : (ipcp_table_update dm.ipcp_table id
        (fun x => { x with zombie := true })).find? (fun x => x.id = id) =
      some { e with zombie := true } :=
    ipcp_find_update dm.ipcp_table id _ e hfind (by simpa using heid)
  refine ⟨rfl, ?_⟩
  unfold __ipcp_put ipcp_lookup
  dsimp only
  rw [hfind2]
  dsimp only
  rw [if_neg (by change ¬ e.refcnt = 1; omega)]
  dsimp only
  have hfind3 := ipcp_find_update
    (ipcp_table_update dm.ipcp_table id (fun x => { x with zombie := true })) id
    (fun x => { x with refcnt := x.refcnt - 1 }) { e with zombie := true }
    hfind2 (by simpa using heid)
  exact hfind3

/-- C10: the initial IPCP-update replay performed when a control device
turns on the IPCP-updates subscription enumerates every IPCP currently in
the table with no filtering of the ZOMBIE flag: the upstream gains one ADD
update per table entry, zombie or not; in particular, after IPCP_DESTROY of
a still-referenced IPCP (reference count at least 2, so the entry stays in
the table marked ZOMBIE), a device that subscribes receives an ADD update
for that zombie IPCP as well. -/
theorem initial_update_zombie_C10 (table : List IpcpEntry) (rc : CtrlSubState)
    (dm : IpcpDM) (id : Nat) (e : IpcpEntry)
    (hoff : rc.flags_ipcps = false)
    (hfind : ipcp_lookup dm id = some e) (hz : e.zombie = false)
    (hrc : 2 ≤ e.refcnt) (hid : id < IPCP_ID_BITMAP_SIZE) :
    ((rl_ctrl_ioctl table rc true).upqueue_updates =
      rc.upqueue_updates ++
        table.map (fun x => ipcp_update_fill x RL_IPCP_UPDATE_ADD)) ∧
    (∀ z ∈ table, ipcp_update_fill z RL_IPCP_UPDATE_ADD ∈
      (rl_ctrl_ioctl table rc true).upqueue_updates) ∧
    ((ipcp_del dm id).2 = 0 ∧
     ipcp_update_fill { e with zombie := true, refcnt := e.refcnt - 1 }
         RL_IPCP_UPDATE_ADD ∈
       (rl_ctrl_ioctl (ipcp_del dm id).1.ipcp_table rc true).upqueue_updates) := by
  have hioctl : ∀ (t : List IpcpEntry),
      (rl_ctrl_ioctl t rc true).upqueue_updates =
        rc.upqueue_updates ++ t.map (fun x => ipcp_update_fill x RL_IPCP_UPDATE_ADD) := by
    intro t
    unfold rl_ctrl_ioctl initial_ipcp_update
    simp [hoff]
  have hmem : ∀ (t : List IpcpEntry), ∀ z ∈ t,
      ipcp_update_fill z RL_IPCP_UPDATE_ADD ∈ (rl_ctrl_ioctl t rc true).upqueue_updates := by
    intro t z hzt
    rw [hioctl t]
    exact List.mem_append_right _ (List.mem_map.mpr ⟨z, hzt, rfl⟩)
  obtain ⟨hdel, hlook⟩ := ipcp_del_still_referenced dm id e hfind hz hrc hid
  refine ⟨hioctl table, hmem table, hdel, ?_⟩
  have hzin : ({ e with zombie := true, refcnt := e.refcnt - 1 } : IpcpEntry) ∈
      (ipcp_del dm id).1.ipcp_table := List.mem_of_find?_eq_some hlook
  exact hmem (ipcp_del dm id).1.ipcp_table _ hzin

/-- Witness for C10: a concrete destroy of IPCP 7 (reference count 2) keeps
the zombified entry in the table, and a concrete device subscribing
afterwards gets the ADD update for it enqueued. -/
theorem initial_update_zombie_C10_witness :
    ((rl_ctrl_ioctl [ipcp_add_entry_init 8 "h" "d8" "normal"] ⟨false, []⟩ true).upqueue_updates =
      [] ++ [ipcp_add_entry_init 8 "h" "d8" "normal"].map
        (fun x => ipcp_update_fill x RL_IPCP_UPDATE_ADD)) ∧
    (∀ z ∈ [ipcp_add_entry_init 8 "h" "d8" "normal"],
      ipcp_update_fill z RL_IPCP_UPDATE_ADD ∈
        (rl_ctrl_ioctl [ipcp_add_entry_init 8 "h" "d8" "normal"] ⟨false, []⟩ true).upqueue_updates) ∧
    ((ipcp_del ⟨[{ ipcp_add_entry_init 7 "g" "d7" "normal" with refcnt := 2 }], [7]⟩ 7).2 = 0 ∧
     ipcp_update_fill
         { { ipcp_add_entry_init 7 "g" "d7" "normal" with refcnt := 2 } with
           zombie := true,
           refcnt := ({ ipcp_add_entry_init 7 "g" "d7" "normal" with refcnt := 2 } : IpcpEntry).refcnt - 1 }
         RL_IPCP_UPDATE_ADD ∈
       (rl_ctrl_ioctl
         (ipcp_del ⟨[{ ipcp_add_entry_init 7 "g" "d7" "normal" with refcnt := 2 }], [7]⟩ 7).1.ipcp_table
         ⟨false, []⟩ true).upqueue_updates) :=
  initial_update_zombie_C10 [ipcp_add_entry_init 8 "h" "d8" "normal"] ⟨false, []⟩
    ⟨[{ ipcp_add_entry_init 7 "g" "d7" "normal" with refcnt := 2 }], [7]⟩ 7
    { ipcp_add_entry_init 7 "g" "d7" "normal" with refcnt := 2 }
    rfl (by decide) (by decide) (by decide) (by decide)

theorem rl_flow_fetch_step (ipcps : List IpcpEntry) (flows : List FlowEntry)
    (rc : FlowFetchCtrl) (filter : Option Nat) (event_id : Nat)
    (hv : filter = none ∨ ∃ i, filter = some i ∧
      (ipcps.find? (fun e => e.id = i)).isSome = true) :
    ∀ h t, (if rc.flows_fetch_q.isEmpty then flow_fetch_snapshot ipcps flows filter
            else rc.flows_fetch_q) = h :: t →
      rl_flow_fetch ipcps flows rc filter event_id =
        (⟨t, rc.upstream ++ [{ h with event_id := event_id }]⟩, 0) := by
  intro h t hq
  rcases hv with hv | ⟨i, hvi, hvs⟩
  · subst hv
    unfold rl_flow_fetch
    dsimp only
    rw [hq]
    simp
  · subst hvi
    unfold rl_flow_fetch
    dsimp only
    rw [hvs, hq]
    simp

theorem rl_reg_fetch_step (ipcps : List IpcpEntry)
    (rc : RegFetchCtrl) (filter : Option Nat) (event_id : Nat)
    (hv : filter = none ∨ ∃ i, filter = some i ∧
      (ipcps.find? (fun e => e.id = i)).isSome = true) :
    ∀ h t, (if rc.regs_fetch_q.isEmpty then reg_fetch_snapshot ipcps filter
            else rc.regs_fetch_q) = h :: t →
      rl_reg_fetch ipcps rc filter event_id =
        (⟨t, rc.upstream ++ [{ h with event_id := event_id }]⟩, 0) := by
  intro h t hq
  rcases hv with hv | ⟨i, hvi, hvs⟩
  · subst hv
    unfold rl_reg_fetch
    dsimp only
    rw [hq]
    simp
  · subst hvi
    unfold rl_reg_fetch
    dsimp only
    rw [hvs, hq]
    simp

theorem rl_flow_fetch_iter_take (ipcps : List IpcpEntry) (flows : List FlowEntry)
    (rc : FlowFetchCtrl) (filter : Option Nat) (event_id : Nat)
    (hv : filter = none ∨ ∃ i, filter = some i ∧
      (ipcps.find? (fun e => e.id = i)).isSome = true)
    (hq : rc.flows_fetch_q = []) :
    ∀ n, 1 ≤ n → n ≤ (flow_fetch_snapshot ipcps flows filter).length →
      rl_flow_fetch_iter ipcps flows rc filter event_id n =
        ⟨(flow_fetch_snapshot ipcps flows filter).drop n,
         rc.upstream ++ ((flow_fetch_snapshot ipcps flows filter).take n).map
           (fun x => { x with event_id := event_id })⟩ := by
  intro n
  induction n with
  | zero => omega
  | succ m ih =>
    intro h1 hle
    by_cases hm : m = 0
    · subst hm
      have hlen : 0 < (flow_fetch_snapshot ipcps flows filter).length := by omega
      obtain ⟨h0, t0, hsnap⟩ : ∃ h0 t0,
          flow_fetch_snapshot ipcps flows filter = h0 :: t0 := by
        cases hs : flow_fetch_snapshot ipcps flows filter with
        | nil => rw [hs] at hlen; simp at hlen
        | cons a b => exact ⟨a, b, rfl⟩
      have hstep := rl_flow_fetch_step ipcps flows rc filter event_id hv h0 t0
        (by rw [hq]; simpa using hsnap)
      simp only [rl_flow_fetch_iter]
      rw [hstep, hsnap]
      simp
    · have hm1 : 1 ≤ m := by omega
      have hmlt : m < (flow_fetch_snapshot ipcps flows filter).length := by omega
      have hih := ih hm1 (by omega)
      have hdrop : (flow_fetch_snapshot ipcps flows filter).drop m =
          (flow_fetch_snapshot ipcps flows filter)[m] ::
            (flow_fetch_snapshot ipcps flows filter).drop (m + 1) :=
        List.drop_eq_getElem_cons hmlt
      have hstep := rl_flow_fetch_step ipcps flows
        ⟨(flow_fetch_snapshot ipcps flows filter).drop m,
         rc.upstream ++ ((flow_fetch_snapshot ipcps flows filter).take m).map
           (fun x => { x with event_id := event_id })⟩ filter event_id hv
        ((flow_fetch_snapshot ipcps flows filter)[m])
        ((flow_fetch_snapshot ipcps flows filter).drop (m + 1))
        (by
          dsimp only
          rw [hdrop, List.isEmpty_cons]
          rw [if_neg (by simp)])
      simp only [rl_flow_fetch_iter]
      rw [hih, hstep]
      dsimp only
      congr 1
      rw [List.append_assoc]
      congr 1
      rw [List.take_succ, List.getElem?_eq_getElem hmlt]
      simp only [Option.toList_some, List.map_append, List.map_cons, List.map_nil]

theorem rl_reg_fetch_iter_take (ipcps : List IpcpEntry)
    (rc : RegFetchCtrl) (filter : Option Nat) (event_id : Nat)
    (hv : filter = none ∨ ∃ i, filter = some i ∧
      (ipcps.find? (fun e => e.id = i)).isSome = true)
    (hq : rc.regs_fetch_q = []) :
    ∀ n, 1 ≤ n → n ≤ (reg_fetch_snapshot ipcps filter).length →
      rl_reg_fetch_iter ipcps rc filter event_id n =
        ⟨(reg_fetch_snapshot ipcps filter).drop n,
         rc.upstream ++ ((reg_fetch_snapshot ipcps filter).take n).map
           (fun x => { x with event_id := event_id })⟩ := by
  intro n
  induction n with
  | zero => omega
  | succ m ih =>
    intro h1 hle
    by_cases hm : m = 0
    · subst hm
      have hlen : 0 < (reg_fetch_snapshot ipcps filter).length := by omega
      obtain ⟨h0, t0, hsnap⟩ : ∃ h0 t0,
          reg_fetch_snapshot ipcps filter = h0 :: t0 := by
        cases hs : reg_fetch_snapshot ipcps filter with
        | nil => rw [hs] at hlen; simp at hlen
        | cons a b => exact ⟨a, b, rfl⟩
      have hstep := rl_reg_fetch_step ipcps rc filter event_id hv h0 t0
        (by rw [hq]; simpa using hsnap)
      simp only [rl_reg_fetch_iter]
      rw [hstep, hsnap]
      simp
    · have hm1 : 1 ≤ m := by omega
      have hmlt : m < (reg_fetch_snapshot ipcps filter).length := by omega
      have hih := ih hm1 (by omega)
      have hdrop : (reg_fetch_snapshot ipcps filter).drop m =
          (reg_fetch_snapshot ipcps filter)[m] ::
            (reg_fetch_snapshot ipcps filter).drop (m + 1) :=
        List.drop_eq_getElem_cons hmlt
      have hstep := rl_reg_fetch_step ipcps
        ⟨(reg_fetch_snapshot ipcps filter).drop m,
         rc.upstream ++ ((reg_fetch_snapshot ipcps filter).take m).map
           (fun x => { x with event_id := event_id })⟩ filter event_id hv
        ((reg_fetch_snapshot ipcps filter)[m])
        ((reg_fetch_snapshot ipcps filter).drop (m + 1))
        (by
          dsimp only
          rw [hdrop, List.isEmpty_cons]
          rw [if_neg (by simp)])
      simp only [rl_reg_fetch_iter]
      rw [hih, hstep]
      dsimp only
      congr 1
      rw [List.append_assoc]
      congr 1
      rw [List.take_succ, List.getElem?_eq_getElem hmlt]
      simp only [Option.toList_some, List.map_append, List.map_cons, List.map_nil]

/-- C9: for every FLOW_FETCH (respectively REG_FETCH) request on a control
device whose optional IPCP-id filter names an existing IPCP: the snapshot
built when the fetch queue is empty consists of one response per matching
entry of the current flow (registration) table followed by a terminator with
end = true; whenever the (possibly refilled) fetch queue is nonempty its
head is popped, stamped with the request's event id and enqueued on the
device's upstream queue; and starting from an empty fetch queue, n
successive requests (n up to the snapshot length) deliver exactly the first
n snapshot entries upstream in order, so enumeration ends at the
terminator. -/
theorem fetch_cursors_C9 (ipcps : List IpcpEntry) (flows : List FlowEntry)
    (rcF : FlowFetchCtrl) (rcR : RegFetchCtrl) (filter : Option Nat)
    (event_id : Nat)
    (hv : filter = none ∨ ∃ i, filter = some i ∧
      (ipcps.find? (fun e => e.id = i)).isSome = true) :
    (flow_fetch_snapshot ipcps flows filter =
      (flows.filter (flow_fetch_match filter)).map (flow_fetch_resp_of ipcps) ++
        [flow_fetch_terminator] ∧
     flow_fetch_terminator.fetch_end = true) ∧
    (∀ h t, (if rcF.flows_fetch_q.isEmpty then flow_fetch_snapshot ipcps flows filter
             else rcF.flows_fetch_q) = h :: t →
      rl_flow_fetch ipcps flows rcF filter event_id =
        (⟨t, rcF.upstream ++ [{ h with event_id := event_id }]⟩, 0)) ∧
    (rcF.flows_fetch_q = [] →
      ∀ n, 1 ≤ n → n ≤ (flow_fetch_snapshot ipcps flows filter).length →
        rl_flow_fetch_iter ipcps flows rcF filter event_id n =
          ⟨(flow_fetch_snapshot ipcps flows filter).drop n,
           rcF.upstream ++ ((flow_fetch_snapshot ipcps flows filter).take n).map
             (fun x => { x with event_id := event_id })⟩) ∧
    (reg_fetch_snapshot ipcps filter =
      ((ipcps.filter (reg_fetch_match filter)).map reg_fetch_resps_of).flatten ++
        [reg_fetch_terminator] ∧
     reg_fetch_terminator.fetch_end = true) ∧
    (∀ h t, (if rcR.regs_fetch_q.isEmpty then reg_fetch_snapshot ipcps filter
             else rcR.regs_fetch_q) = h :: t →
      rl_reg_fetch ipcps rcR filter event_id =
        (⟨t, rcR.upstream ++ [{ h with event_id := event_id }]⟩, 0)) ∧
    (rcR.regs_fetch_q = [] →
      ∀ n, 1 ≤ n → n ≤ (reg_fetch_snapshot ipcps filter).length →
        rl_reg_fetch_iter ipcps rcR filter event_id n =
          ⟨(reg_fetch_snapshot ipcps filter).drop n,
           rcR.upstream ++ ((reg_fetch_snapshot ipcps filter).take n).map
             (fun x => { x with event_id := event_id })⟩) :=
  ⟨⟨rfl, rfl⟩,
   rl_flow_fetch_step ipcps flows rcF filter event_id hv,
   fun hq => rl_flow_fetch_iter_take ipcps flows rcF filter event_id hv hq,
   ⟨rfl, rfl⟩,
   rl_reg_fetch_step ipcps rcR filter event_id hv,
   fun hq => rl_reg_fetch_iter_take ipcps rcR filter event_id hv hq⟩

/-- Witness for C9 on a concrete table of one flow and one registration with
no filter: two successive FLOW_FETCH requests starting from an empty fetch
queue deliver the flow response and then the terminator, and likewise for
REG_FETCH. -/
theorem fetch_cursors_C9_witness :
    rl_flow_fetch_iter [sample_reg_ipcp] [sample_flow] ⟨[], []⟩ none 5 2 =
      ⟨(flow_fetch_snapshot [sample_reg_ipcp] [sample_flow] none).drop 2,
       [] ++ ((flow_fetch_snapshot [sample_reg_ipcp] [sample_flow] none).take 2).map
         (fun x => { x with event_id := 5 })⟩ ∧
    rl_reg_fetch_iter [sample_reg_ipcp] ⟨[], []⟩ none 5 2 =
      ⟨(reg_fetch_snapshot [sample_reg_ipcp] none).drop 2,
       [] ++ ((reg_fetch_snapshot [sample_reg_ipcp] none).take 2).map
         (fun x => { x with event_id := 5 })⟩ := by
  have h := fetch_cursors_C9 [sample_reg_ipcp] [sample_flow] ⟨[], []⟩ ⟨[], []⟩
    none 5 (Or.inl rfl)
  exact ⟨h.2.2.1 rfl 2 (by decide) (by decide),
         h.2.2.2.2.2 rfl 2 (by decide) (by decide)⟩

theorem flow_find_update (t : List FlowEntry) (p : Nat) (g : FlowEntry → FlowEntry)
    (fl : FlowEntry) (h : t.find? (fun f => f.local_port = p) = some fl)
    (hg : (g fl).local_port = p) :
    (flow_table_update t p g).find? (fun f => f.local_port = p) = some (g fl) := by
  induction t with
  | nil => simp at h
  | cons a rest ih =>
    by_cases hp : a.local_port = p
    · rw [List.find?_cons_of_pos _ (by simp [hp])] at h
      have hae : a = fl := Option.some_inj.mp h
      subst hae
      unfold flow_table_update
      simp only [List.map_cons, if_pos hp]
      rw [List.find?_cons_of_pos _ (by simp [hg])]
    · rw [List.find?_cons_of_neg _ (by simp [hp])] at h
      unfold flow_table_update at ih ⊢
      simp only [List.map_cons, if_neg hp]
      rw [List.find?_cons_of_neg _ (by simp [hp])]
      exact ih h

theorem flow_table_update_update (t : List FlowEntry) (p : Nat)
    (g1 g2 : FlowEntry → FlowEntry)
    (hport : ∀ f, (g1 f).local_port = f.local_port) :
    flow_table_update (flow_table_update t p g1) p g2 =
      flow_table_update t p (fun f => g2 (g1 f)) := by
  unfold flow_table_update
  rw [List.map_map]
  apply List.map_congr_left
  intro f _
  by_cases hp : f.local_port = p
  · simp [Function.comp, hp, hport f]
  · simp [Function.comp, hp]

theorem flow_table_update_congr (t : List FlowEntry) (p : Nat)
    (g1 g2 : FlowEntry → FlowEntry) (h : ∀ f, g1 f = g2 f) :
    flow_table_update t p g1 = flow_table_update t p g2 := by
  unfold flow_table_update
  apply List.map_congr_left
  intro f _
  rw [h f]

theorem flow_table_update_id (t : List FlowEntry) (p : Nat)
    (g : FlowEntry → FlowEntry) (hg : ∀ f, g f = f) :
    flow_table_update t p g = t := by
  unfold flow_table_update
  have h : ∀ f ∈ t, (if f.local_port = p then g f else f) = id f := by
    intro f _
    by_cases hp : f.local_port = p <;> simp [hp, hg]
  rw [List.map_congr_left h, List.map_id]

theorem rl_flow_shutdown_port (f : FlowEntry) :
    (rl_flow_shutdown f).local_port = f.local_port := by
  unfold rl_flow_shutdown
  by_cases h : f.allocated = true <;> simp [h]

theorem rl_flow_shutdown_uid (f : FlowEntry) :
    (rl_flow_shutdown f).uid = f.uid := by
  unfold rl_flow_shutdown
  by_cases h : f.allocated = true <;> simp [h]

theorem rl_flow_shutdown_refcnt (f : FlowEntry) :
    (rl_flow_shutdown f).refcnt = f.refcnt := by
  unfold rl_flow_shutdown
  by_cases h : f.allocated = true <;> simp [h]

theorem rl_flow_shutdown_idem (f : FlowEntry) :
    rl_flow_shutdown (rl_flow_shutdown f) = rl_flow_shutdown f := by
  unfold rl_flow_shutdown
  by_cases h : f.allocated = true <;> simp [h]

theorem rl_flow_dealloc_spec (ipcp : IpcpEntry) (now : Nat) (dm : FlowDM)
    (port uid : Nat) (fl : FlowEntry)
    (hfind : flow_lookup dm port = some fl) (hrc : 1 ≤ fl.refcnt) :
    (fl.uid = uid →
      rl_flow_dealloc ipcp now dm port uid =
        ({ dm with flow_table := flow_table_update dm.flow_table port rl_flow_shutdown },
         0)) ∧
    (¬ fl.uid = uid → rl_flow_dealloc ipcp now dm port uid = (dm, - ENXIO)) := by
  have hport : fl.local_port = port := by
    have := List.find?_some hfind
    simpa using this
  constructor
  · intro huid
    unfold rl_flow_dealloc
    rw [hfind]
    dsimp only
    rw [if_pos huid]
    have hf1 : (flow_table_update dm.flow_table port
          (fun f => { f with refcnt := f.refcnt + 1 })).find?
          (fun f => f.local_port = port) =
        some { fl with refcnt := fl.refcnt + 1 } :=
      flow_find_update dm.flow_table port _ fl hfind (by simpa using hport)
    have hf2 : (flow_table_update
          (flow_table_update dm.flow_table port (fun f => { f with refcnt := f.refcnt + 1 }))
          port rl_flow_shutdown).find? (fun f => f.local_port = port) =
        some (rl_flow_shutdown { fl with refcnt := fl.refcnt + 1 }) :=
      flow_find_update _ port _ _ hf1 ((rl_flow_shutdown_port _).trans hport)
    unfold __flow_put flow_lookup
    dsimp only
    rw [hf2]
    dsimp only
    rw [if_pos (by
      rw [rl_flow_shutdown_refcnt]
      change ¬ (fl.refcnt + 1 = 1)
      omega)]
    have hchain : flow_table_update
        (flow_table_update
          (flow_table_update dm.flow_table port (fun f => { f with refcnt := f.refcnt + 1 }))
          port rl_flow_shutdown)
        port (fun f => { f with refcnt := f.refcnt - 1 }) =
        flow_table_update dm.flow_table port rl_flow_shutdown := by
      rw [flow_table_update_update dm.flow_table port
        (fun f => { f with refcnt := f.refcnt + 1 }) rl_flow_shutdown (fun f => rfl)]
      rw [flow_table_update_update dm.flow_table port
        (fun f => rl_flow_shutdown { f with refcnt := f.refcnt + 1 })
        (fun f => { f with refcnt := f.refcnt - 1 })
        (fun f => rl_flow_shutdown_port _)]
      apply flow_table_update_congr
      intro f
      by_cases h : f.allocated = true
      · unfold rl_flow_shutdown
        simp [h]
      · unfold rl_flow_shutdown
        rw [if_neg h, if_neg h]
        simp
    rw [hchain]
  · intro huid
    unfold rl_flow_dealloc
    rw [hfind]
    dsimp only
    rw [if_neg huid]
    have hf1 : (flow_table_update dm.flow_table port
          (fun f => { f with refcnt := f.refcnt + 1 })).find?
          (fun f => f.local_port = port) =
        some { fl with refcnt := fl.refcnt + 1 } :=
      flow_find_update dm.flow_table port _ fl hfind (by simpa using hport)
    unfold __flow_put flow_lookup
    dsimp only
    rw [hf1]
    dsimp only
    rw [if_pos (by
      change ¬ (fl.refcnt + 1 = 1)
      omega)]
    have hchain : flow_table_update
        (flow_table_update dm.flow_table port (fun f => { f with refcnt := f.refcnt + 1 }))
        port (fun f => { f with refcnt := f.refcnt - 1 }) = dm.flow_table := by
      rw [flow_table_update_update dm.flow_table port
        (fun f => { f with refcnt := f.refcnt + 1 })
        (fun f => { f with refcnt := f.refcnt - 1 }) (fun f => rfl)]
      apply flow_table_update_id
      intro f
      simp
    rw [hchain]

/-- C6 (amended): FLOW_DEALLOC{port_id, uid} succeeds exactly when a flow
with the given port id exists and its uid field equals the given uid, which
defends against port-id reuse; a FLOW_DEALLOC issued after the flow has been
removed (or its port id reused by a flow with a different uid) fails with
no-device. When the two FLOW_DEALLOC calls of the deallocation race both run
while the flow is still in the table with a matching uid, both return
success: the first sets the EOF condition and the DEALLOCATED flag and the
second changes no state (the shutdown is idempotent), so exactly one of the
two takes effect on the flow state, but the second reports success rather
than no-device. -/
theorem flow_dealloc_race_C6 (ipcp : IpcpEntry) (now now2 : Nat) (dm : FlowDM)
    (port uid : Nat) (fl : FlowEntry)
    (hfind : flow_lookup dm port = some fl) (hrc : 1 ≤ fl.refcnt) :
    (∀ dm0 : FlowDM, flow_lookup dm0 port = none →
      rl_flow_dealloc ipcp now2 dm0 port uid = (dm0, - ENXIO)) ∧
    (¬ fl.uid = uid → rl_flow_dealloc ipcp now dm port uid = (dm, - ENXIO)) ∧
    (fl.uid = uid →
      rl_flow_dealloc ipcp now dm port uid =
        ({ dm with flow_table := flow_table_update dm.flow_table port rl_flow_shutdown },
         0) ∧
      rl_flow_dealloc ipcp now2
          { dm with flow_table := flow_table_update dm.flow_table port rl_flow_shutdown }
          port uid =
        ({ dm with flow_table := flow_table_update dm.flow_table port rl_flow_shutdown },
         0)) := by
  have hport : fl.local_port = port := by
    have := List.find?_some hfind
    simpa using this
  refine ⟨?_, ?_, ?_⟩
  · intro dm0 hnone
    unfold rl_flow_dealloc
    rw [hnone]
  · intro huid
    exact (rl_flow_dealloc_spec ipcp now dm port uid fl hfind hrc).2 huid
  · intro huid
    have hfirst := (rl_flow_dealloc_spec ipcp now dm port uid fl hfind hrc).1 huid
    refine ⟨hfirst, ?_⟩
    have hfind2 : flow_lookup
        { dm with flow_table := flow_table_update dm.flow_table port rl_flow_shutdown }
        port = some (rl_flow_shutdown fl) :=
      flow_find_update dm.flow_table port rl_flow_shutdown fl hfind
        ((rl_flow_shutdown_port fl).trans hport)
    have hrc2 : 1 ≤ (rl_flow_shutdown fl).refcnt := by
      rw [rl_flow_shutdown_refcnt]
      exact hrc
    have huid2 : (rl_flow_shutdown fl).uid = uid := by
      rw [rl_flow_shutdown_uid]
      exact huid
    have hsecond := (rl_flow_dealloc_spec ipcp now2
      { dm with flow_table := flow_table_update dm.flow_table port rl_flow_shutdown }
      port uid (rl_flow_shutdown fl) hfind2 hrc2).1 huid2
    rw [hsecond]
    have hidem : flow_table_update
        (flow_table_update dm.flow_table port rl_flow_shutdown) port rl_flow_shutdown =
        flow_table_update dm.flow_table port rl_flow_shutdown := by
      rw [flow_table_update_update dm.flow_table port rl_flow_shutdown rl_flow_shutdown
        rl_flow_shutdown_port]
      exact flow_table_update_congr dm.flow_table port _ _ rl_flow_shutdown_idem
    simp only [hidem]

/-- C6 counterexample: with the sample flow (port 5, uid 7, ALLOCATED, two
references) still in the table, two back-to-back FLOW_DEALLOC{5, 7} calls
both return 0; the second does not fail with no-device as the claim states,
it is merely a state no-op. -/
theorem flow_dealloc_race_C6_cex :
    (rl_flow_dealloc sample_ipcp 100 sample_flow_dm 5 7).2 = 0 ∧
    (rl_flow_dealloc sample_ipcp 200
      (rl_flow_dealloc sample_ipcp 100 sample_flow_dm 5 7).1 5 7).2 = 0 ∧
    (0 : Int) ≠ - ENXIO := by
  refine ⟨rfl, rfl, by decide⟩

/-- Witness for C6 (amended) at the sample flow: a dealloc on an empty table
fails with no-device, a dealloc with the wrong uid (8 instead of 7) fails
with no-device leaving the table unchanged, and the matching-uid dealloc
succeeds with the second call a no-op returning success. -/
theorem flow_dealloc_race_C6_witness :
    rl_flow_dealloc sample_ipcp 200 ⟨[], [], [], [], [], [], none⟩ 5 7 =
      (⟨[], [], [], [], [], [], none⟩, - ENXIO) ∧
    rl_flow_dealloc sample_ipcp 100 sample_flow_dm 5 8 = (sample_flow_dm, - ENXIO) ∧
    (rl_flow_dealloc sample_ipcp 100 sample_flow_dm 5 7 =
      ({ sample_flow_dm with
         flow_table := flow_table_update sample_flow_dm.flow_table 5 rl_flow_shutdown },
       0) ∧
     rl_flow_dealloc sample_ipcp 200
        { sample_flow_dm with
          flow_table := flow_table_update sample_flow_dm.flow_table 5 rl_flow_shutdown }
        5 7 =
      ({ sample_flow_dm with
         flow_table := flow_table_update sample_flow_dm.flow_table 5 rl_flow_shutdown },
       0)) := by
  have h7 := flow_dealloc_race_C6 sample_ipcp 100 200 sample_flow_dm 5 7 sample_flow
    rfl (by decide)
  have h8 := flow_dealloc_race_C6 sample_ipcp 100 200 sample_flow_dm 5 8 sample_flow
    rfl (by decide)
  exact ⟨h7.1 ⟨[], [], [], [], [], [], none⟩ rfl, h8.2.1 (by decide), h7.2.2 rfl⟩

theorem putq_insert_mem (p exp : Nat) (q : List (Nat × Nat)) (x : Nat × Nat) :
    x ∈ putq_insert p exp q ↔ x ∈ q ∨ x = (p, exp) := by
  induction q with
  | nil => simp [putq_insert]
  | cons cur rest ih =>
    unfold putq_insert
    by_cases hc : exp < cur.2
    · rw [if_pos hc]
      simp only [List.mem_cons]
      tauto
    · rw [if_neg hc]
      simp only [List.mem_cons, ih]
      tauto

theorem putq_insert_sorted (p exp : Nat) (q : List (Nat × Nat))
    (h : q.Sorted (fun a b => a.2 ≤ b.2)) :
    (putq_insert p exp q).Sorted (fun a b => a.2 ≤ b.2) := by
  induction q with
  | nil => simp [putq_insert]
  | cons cur rest ih =>
    rw [List.sorted_cons] at h
    unfold putq_insert
    by_cases hc : exp < cur.2
    · rw [if_pos hc]
      rw [List.sorted_cons]
      constructor
      · intro b hb
        rcases List.mem_cons.mp hb with hb | hb
        · rw [hb]
          omega
        · have := h.1 b hb
          omega
      · rw [List.sorted_cons]
        exact h
    · rw [if_neg hc]
      rw [List.sorted_cons]
      constructor
      · intro b hb
        rcases (putq_insert_mem p exp rest b).mp hb with hb | hb
        · exact h.1 b hb
        · rw [hb]
          simp
          omega
      · exact ih h.2

theorem putq_insert_ne_nil (p exp : Nat) (q : List (Nat × Nat)) :
    putq_insert p exp q ≠ [] := by
  cases q with
  | nil => simp [putq_insert]
  | cons cur rest =>
    unfold putq_insert
    by_cases hc : exp < cur.2 <;> simp [hc]

theorem flows_putq_add_spec (dm : FlowDM) (p now jdelta : Nat) (fl : FlowEntry)
    (hfind : flow_lookup dm p = some fl) (hexp : fl.expires = none) :
    flows_putq_add dm p now jdelta =
      { dm with
        flow_table := flow_table_update
          (flow_table_update dm.flow_table p (fun f => { f with refcnt := f.refcnt + 1 }))
          p (fun f => { f with expires := some (now + jdelta) })
        flows_putq := putq_insert p (now + jdelta) dm.flows_putq
        flows_putq_tmr :=
          (putq_insert p (now + jdelta) dm.flows_putq).head?.map Prod.snd } := by
  unfold flows_putq_add
  rw [hfind]
  dsimp only
  rw [hexp]

theorem flow_put_postpone_eq (ipcp : IpcpEntry) (now : Nat) (dm : FlowDM) (p : Nat)
    (fl : FlowEntry) (hfind : flow_lookup dm p = some fl) (hrc : fl.refcnt = 1)
    (h1 : fl.del_postponed = false) (h2 : fl.allocated = true)
    (h3 : fl.never_bound = false) (hexp : fl.expires = none) :
    __flow_put ipcp now dm p =
      { dm with
        flow_table := flow_table_update
          (flow_table_update
            (flow_table_update dm.flow_table p
              (fun _ => { fl with refcnt := 1, deallocated := true, del_postponed := true }))
            p (fun f => { f with refcnt := f.refcnt + 1 }))
          p (fun f => { f with expires := some (now + ipcp.flow_del_wait_ms) })
        flows_putq := putq_insert p (now + ipcp.flow_del_wait_ms) dm.flows_putq
        flows_putq_tmr :=
          (putq_insert p (now + ipcp.flow_del_wait_ms) dm.flows_putq).head?.map
            Prod.snd } := by
  have hport : fl.local_port = p := by
    have := List.find?_some hfind
    simpa using this
  unfold __flow_put
  rw [hfind]
  dsimp only
  rw [if_neg (by simp [hrc])]
  rw [if_pos (by simp [h1, h2, h3])]
  have hfind2 : flow_lookup
      ⟨flow_table_update dm.flow_table p
          (fun _ => { fl with refcnt := 1, deallocated := true, del_postponed := true }),
        dm.port_id_bitmap, dm.cep_table, dm.cep_id_bitmap, dm.flows_putq,
        dm.flows_removeq, dm.flows_putq_tmr⟩ p =
      some { fl with refcnt := 1, deallocated := true, del_postponed := true } :=
    flow_find_update dm.flow_table p _ fl hfind hport
  rw [flows_putq_add_spec _ p now ipcp.flow_del_wait_ms
    { fl with refcnt := 1, deallocated := true, del_postponed := true } hfind2 hexp]

theorem flow_put_remove_eq (ipcp : IpcpEntry) (now : Nat) (dm : FlowDM) (p : Nat)
    (fl : FlowEntry) (hfind : flow_lookup dm p = some fl) (hrc : fl.refcnt = 1)
    (hcase : ¬ (fl.del_postponed = false ∧ fl.allocated = true ∧ fl.never_bound = false)) :
    __flow_put ipcp now dm p =
      { flow_table := dm.flow_table.filter (fun f => ¬ f.local_port = p)
        port_id_bitmap := dm.port_id_bitmap.filter (fun b => ¬ b = p)
        cep_table :=
          if ipcp.use_cep_ids then dm.cep_table.filter (fun c => ¬ c = fl.local_cep)
          else dm.cep_table
        cep_id_bitmap :=
          if ipcp.use_cep_ids then dm.cep_id_bitmap.filter (fun c => ¬ c = fl.local_cep)
          else dm.cep_id_bitmap
        flows_putq := dm.flows_putq
        flows_removeq := dm.flows_removeq ++ [{ fl with refcnt := 0, deallocated := true }]
        flows_putq_tmr := dm.flows_putq_tmr } := by
  unfold __flow_put
  rw [hfind]
  dsimp only
  rw [if_neg (by simp [hrc])]
  rw [if_neg (by simp only [Bool.not_eq_true]; exact hcase)]

/-- C1 (amended): for every flow whose reference count drops to zero in
`__flow_put`, the DEALLOCATED flag is set. If the flow had been ALLOCATED,
was not previously postponed, and is not never-bound, it is marked
DEL_POSTPONED and inserted into the DM put-queue kept sorted by ascending
expiration time now + flow_del_wait_ms (per-IPCP, default 4000 ms as set by
`ipcp_add_entry`), with the put-queue timer armed to the earliest entry; its
refcount ends at 2, not 1: the explicit re-raise to 1 is followed by the
additional reference that `flows_putq_add` takes for the queue itself (the
two are matched by the two releases in `flows_putq_drain`). Otherwise the
flow is unlinked from the flow table and the port-id bitmap (and from the
CEP table and bitmap when the IPCP uses CEP ids) and appended to the removal
queue for deferred destruction. -/
theorem flow_put_two_stage_C1 (ipcp : IpcpEntry) (now : Nat) (dm : FlowDM)
    (p : Nat) (fl : FlowEntry) (hfind : flow_lookup dm p = some fl)
    (hrc : fl.refcnt = 1)
    (hsorted : dm.flows_putq.Sorted (fun a b => a.2 ≤ b.2)) :
    (∀ i nm dn dt, (ipcp_add_entry_init i nm dn dt).flow_del_wait_ms = 4000) ∧
    (fl.del_postponed = false → fl.allocated = true → fl.never_bound = false →
     fl.expires = none →
      (flow_lookup (__flow_put ipcp now dm p) p =
        some { fl with
               refcnt := 2
               deallocated := true
               del_postponed := true
               expires := some (now + ipcp.flow_del_wait_ms) } ∧
       (__flow_put ipcp now dm p).flows_putq =
         putq_insert p (now + ipcp.flow_del_wait_ms) dm.flows_putq ∧
       (p, now + ipcp.flow_del_wait_ms) ∈ (__flow_put ipcp now dm p).flows_putq ∧
       (__flow_put ipcp now dm p).flows_putq.Sorted (fun a b => a.2 ≤ b.2) ∧
       (∃ h0 t0, (__flow_put ipcp now dm p).flows_putq = h0 :: t0 ∧
         (__flow_put ipcp now dm p).flows_putq_tmr = some h0.2 ∧
         ∀ x ∈ (__flow_put ipcp now dm p).flows_putq, h0.2 ≤ x.2) ∧
       (__flow_put ipcp now dm p).port_id_bitmap = dm.port_id_bitmap ∧
       (__flow_put ipcp now dm p).flows_removeq = dm.flows_removeq)) ∧
    ((fl.del_postponed = true ∨ fl.allocated = false ∨ fl.never_bound = true) →
      __flow_put ipcp now dm p =
        { flow_table := dm.flow_table.filter (fun f => ¬ f.local_port = p)
          port_id_bitmap := dm.port_id_bitmap.filter (fun b => ¬ b = p)
          cep_table :=
            if ipcp.use_cep_ids then dm.cep_table.filter (fun c => ¬ c = fl.local_cep)
            else dm.cep_table
          cep_id_bitmap :=
            if ipcp.use_cep_ids then dm.cep_id_bitmap.filter (fun c => ¬ c = fl.local_cep)
            else dm.cep_id_bitmap
          flows_putq := dm.flows_putq
          flows_removeq :=
            dm.flows_removeq ++ [{ fl with refcnt := 0, deallocated := true }]
          flows_putq_tmr := dm.flows_putq_tmr }) := by
  have hport : fl.local_port = p := by
    have := List.find?_some hfind
    simpa using this
  refine ⟨fun i nm dn dt => rfl, ?_, ?_⟩
  · intro h1 h2 h3 hexp
    have heq := flow_put_postpone_eq ipcp now dm p fl hfind hrc h1 h2 h3 hexp
    have hl1 : (flow_table_update dm.flow_table p
          (fun _ => { fl with refcnt := 1, deallocated := true, del_postponed := true })).find?
          (fun f => f.local_port = p) =
        some { fl with refcnt := 1, deallocated := true, del_postponed := true } :=
      flow_find_update dm.flow_table p _ fl hfind hport
    have hl2 := flow_find_update _ p (fun f => { f with refcnt := f.refcnt + 1 }) _
      hl1 hport
    have hl3 := flow_find_update _ p
      (fun f => { f with expires := some (now + ipcp.flow_del_wait_ms) }) _ hl2 hport
    refine ⟨?_, ?_, ?_, ?_, ?_, ?_, ?_⟩
    · rw [heq]
      exact hl3
    · rw [heq]
    · rw [heq]
      exact (putq_insert_mem p (now + ipcp.flow_del_wait_ms) dm.flows_putq _).mpr
        (Or.inr rfl)
    · rw [heq]
      exact putq_insert_sorted p (now + ipcp.flow_del_wait_ms) dm.flows_putq hsorted
    · cases hq : putq_insert p (now + ipcp.flow_del_wait_ms) dm.flows_putq with
      | nil => exact absurd hq (putq_insert_ne_nil p _ dm.flows_putq)
      | cons h0 t0 =>
        refine ⟨h0, t0, ?_, ?_, ?_⟩
        · rw [heq]
          exact hq
        · rw [heq]
          dsimp only
          rw [hq]
          rfl
        · intro x hx
          rw [heq] at hx
          dsimp only at hx
          rw [hq] at hx
          have hs := putq_insert_sorted p (now + ipcp.flow_del_wait_ms)
            dm.flows_putq hsorted
          rw [hq, List.sorted_cons] at hs
          rcases List.mem_cons.mp hx with hx | hx
          · rw [hx]
          · exact hs.1 x hx
    · rw [heq]
    · rw [heq]
  · intro hcase
    have hcase2 : ¬ (fl.del_postponed = false ∧ fl.allocated = true ∧
        fl.never_bound = false) := by
      intro hc
      rcases hcase with h | h | h
      · rw [h] at hc
        exact absurd hc.1 (by simp)
      · rw [h] at hc
        exact absurd hc.2.1 (by simp)
      · rw [h] at hc
        exact absurd hc.2.2 (by simp)
    exact flow_put_remove_eq ipcp now dm p fl hfind hrc hcase2

/-- C1 counterexample: the sample flow with reference count 1 (ALLOCATED,
not postponed, not never-bound) is put; the postponed entry left in the flow
table has reference count 2, not 1 as the claim states — the explicit
re-raise to 1 is followed by the put-queue reference taken inside
`flows_putq_add`. -/
theorem flow_put_two_stage_C1_cex :
    (flow_lookup
      (__flow_put sample_ipcp 100
        { sample_flow_dm with flow_table := [{ sample_flow with refcnt := 1 }] } 5)
      5).map FlowEntry.refcnt = some 2 ∧ (2 : Nat) ≠ 1 := by
  exact ⟨rfl, by decide⟩

/-- Witness for C1 (amended) at concrete flows: the per-IPCP default delay
is 4000 ms; putting the last reference of an allocated bound flow inserts it
into the put-queue; putting the last reference of a never-bound flow appends
it, DEALLOCATED and with reference count 0, to the removal queue. -/
theorem flow_put_two_stage_C1_witness :
    (ipcp_add_entry_init 0 "nm" "dn" "dt").flow_del_wait_ms = 4000 ∧
    (__flow_put sample_ipcp 100
        { sample_flow_dm with flow_table := [{ sample_flow with refcnt := 1 }] }
        5).flows_putq =
      putq_insert 5 (100 + sample_ipcp.flow_del_wait_ms)
        ({ sample_flow_dm with
           flow_table := [{ sample_flow with refcnt := 1 }] } : FlowDM).flows_putq ∧
    (__flow_put sample_ipcp 100
        { sample_flow_dm with
          flow_table := [{ sample_flow with refcnt := 1, never_bound := true }] }
        5).flows_removeq =
      ({ sample_flow_dm with
         flow_table :=
           [{ sample_flow with refcnt := 1, never_bound := true }] } : FlowDM).flows_removeq ++
        [{ sample_flow with refcnt := 0, deallocated := true, never_bound := true }] := by
  have hA := flow_put_two_stage_C1 sample_ipcp 100
    { sample_flow_dm with flow_table := [{ sample_flow with refcnt := 1 }] } 5
    { sample_flow with refcnt := 1 } rfl rfl (by simp [sample_flow_dm])
  have hB := flow_put_two_stage_C1 sample_ipcp 100
    { sample_flow_dm with
      flow_table := [{ sample_flow with refcnt := 1, never_bound := true }] } 5
    { sample_flow with refcnt := 1, never_bound := true } rfl rfl
    (by simp [sample_flow_dm])
  refine ⟨hA.1 0 "nm" "dn" "dt", ?_, ?_⟩
  · exact (hA.2.1 rfl rfl rfl rfl).2.1
  · rw [hB.2.2 (Or.inr (Or.inr rfl))]
